import Mathlib

/-!
StudyHub: the room-based chat server of `server.js`.

A shallow embedding of the in-memory state of `server.js` (the `users`, `rooms`,
`messages` and `aiRateLimit` maps and `globalAIRateLimit`), of its two rate limiters,
of `getAIResponse`, and of the socket handlers `join`, `message`, `typing`,
`disconnect` and `admin-stats`.

Conventions of the embedding:
* a JavaScript `Map` is an insertion-ordered association list (`JsMap`), a JavaScript
  `Set` of strings an insertion-ordered duplicate-free list (`JsSet`);
* `Date.now()` and `new Date()` are explicit integer clock readings (milliseconds)
  handed to each handler, one parameter per reading;
* the generative-AI provider is an explicit oracle (`GenAI`);
* every handler returns the new state together with the list of events it emits.
-/

namespace StudyHub

/-! ## JavaScript `Map` and `Set` -/

/-- Insertion-ordered association list standing for a JavaScript `Map` with string keys. -/
abbrev JsMap (α : Type) := List (String × α)

namespace JsMap

/-- Lookup, as `Map.prototype.get`: `none` stands for `undefined`. -/
def get {α : Type} : JsMap α → String → Option α
  | [], _ => none
  | (k, v) :: rest, key => if k = key then some v else get rest key

/-- Membership of a key, as `Map.prototype.has`. -/
def has {α : Type} (m : JsMap α) (key : String) : Bool :=
  (get m key).isSome

/-- Insertion or replacement, as `Map.prototype.set`: an existing key keeps its place. -/
def set {α : Type} : JsMap α → String → α → JsMap α
  | [], key, val => [(key, val)]
  | (k, v) :: rest, key, val =>
    if k = key then (key, val) :: rest else (k, v) :: set rest key val

/-- Removal of a key, as `Map.prototype.delete`. -/
def delete {α : Type} (m : JsMap α) (key : String) : JsMap α :=
  m.filter (fun kv => decide (kv.1 ≠ key))

/-- Number of entries, as `Map.prototype.size`. -/
def size {α : Type} (m : JsMap α) : Nat :=
  m.length

end JsMap

/-- Insertion-ordered duplicate-free list standing for a JavaScript `Set` of strings. -/
abbrev JsSet := List String

namespace JsSet

/-- Insertion, as `Set.prototype.add`: a present element is left where it is. -/
def add (s : JsSet) (x : String) : JsSet :=
  if x ∈ s then s else s ++ [x]

/-- Removal, as `Set.prototype.delete`. -/
def delete (s : JsSet) (x : String) : JsSet :=
  s.filter (fun y => decide (y ≠ x))

end JsSet

/-! ## Data model -/

/-- Value stored in the `users` map: `{ username, room, isAdmin }`. -/
structure User where
  username : String
  room : String
  isAdmin : Bool
  deriving DecidableEq, Repr

/-- Value stored in the `rooms` map: `{ ...room, users: new Set(), messageCount: 0 }`. -/
structure Room where
  id : String
  name : String
  description : String
  users : JsSet
  messageCount : Nat
  deriving DecidableEq, Repr

/-- Chat message object, as built by the `message` handler. `timestamp` is the clock
reading behind `new Date().toISOString()`. The question and answer objects of an AI
exchange carry no file fields (`none`). -/
structure Message where
  id : Int
  username : String
  text : String
  fileUrl : Option String
  fileName : Option String
  timestamp : Int
  isAI : Bool
  deriving DecidableEq, Repr

/-- Per-user limiter record `{ count, lastRequest, lastReset }`. -/
structure UserLimit where
  count : Nat
  lastRequest : Int
  lastReset : Int
  deriving DecidableEq, Repr

/-- Global limiter record `{ count, lastReset }`. -/
structure GlobalLimit where
  count : Nat
  lastReset : Int
  deriving DecidableEq, Repr

/-- Module-level mutable state of `server.js`. -/
structure State where
  users : JsMap User
  rooms : JsMap Room
  messages : JsMap (List Message)
  aiRateLimit : JsMap UserLimit
  globalAIRateLimit : GlobalLimit
  deriving DecidableEq, Repr

/-- The allow-list `adminUsers`. -/
def adminUsers : JsSet := ["admin", "Dishmi Bawanga"]

/-- The catalog `defaultRooms` as `(id, name, description)`. -/
def defaultRooms : List (String × String × String) :=
  [ ("Math", "📐 Math", "Mathematics and problem solving"),
    ("Science", "🔬 Science", "Physics, Chemistry, Biology"),
    ("English", "📚 English", "Literature and language"),
    ("History", "🏛️ History", "World history and events"),
    ("Programming", "💻 Programming", "Coding and software development") ]

/-- State after module start-up at clock reading `t0`: empty registry, one room and
one empty history per catalog entry, empty per-user limiter, global limiter
`{ count: 0, lastReset: t0 }`. -/
def init (t0 : Int) : State :=
  { users := [],
    rooms := defaultRooms.foldl
      (fun m r => m.set r.1 { id := r.1, name := r.2.1, description := r.2.2,
                              users := [], messageCount := 0 }) [],
    messages := defaultRooms.foldl (fun m r => m.set r.1 []) [],
    aiRateLimit := [],
    globalAIRateLimit := { count := 0, lastReset := t0 } }

/-! ## Rate limiters -/

/-- Function `canMakeGlobalAIRequest()` at clock reading `now`: the answer and the
state afterwards. -/
def canMakeGlobalAIRequest (s : State) (now : Int) : Bool × State :=
  let g0 := s.globalAIRateLimit
  -- Reset count every minute
  let g1 : GlobalLimit :=
    if now - g0.lastReset > 60000 then { count := 0, lastReset := now } else g0
  -- Global limit of 30 requests per minute
  if g1.count ≥ 30 then
    (false, { s with globalAIRateLimit := g1 })
  else
    (true, { s with globalAIRateLimit := { g1 with count := g1.count + 1 } })

/-- Function `canMakeAIRequest(userId)` at clock reading `now`. The record is the one
stored in `aiRateLimit` when there is one (mutated in place, so the reset is visible
even on the denying return), and a new `{ count: 0, lastRequest: 0, lastReset: now }`
otherwise (stored only by the final `aiRateLimit.set`). -/
def canMakeAIRequest (s : State) (userId : String) (now : Int) : Bool × State :=
  let stored := s.aiRateLimit.get userId
  let userLimit : UserLimit :=
    stored.getD { count := 0, lastRequest := 0, lastReset := now }
  -- Reset count if more than 1 minute has passed
  let userLimit1 : UserLimit :=
    if now - userLimit.lastReset > 60000 then
      { userLimit with count := 0, lastReset := now }
    else userLimit
  -- Allow max 5 requests per minute per user
  if userLimit1.count ≥ 5 then
    (false, if stored.isSome then
              { s with aiRateLimit := s.aiRateLimit.set userId userLimit1 }
            else s)
  else
    let userLimit2 : UserLimit :=
      { userLimit1 with count := userLimit1.count + 1, lastRequest := now }
    (true, { s with aiRateLimit := s.aiRateLimit.set userId userLimit2 })

/-! ## String helpers of the JavaScript runtime -/

/-- Substring test on character lists: does `pat` occur in `cs`? -/
def includesChars (pat : List Char) : List Char → Bool
  | [] => pat.isEmpty
  | c :: cs => pat.isPrefixOf (c :: cs) || includesChars pat cs

/-- Method `String.prototype.includes`. -/
def includes (str pat : String) : Bool :=
  includesChars pat.toList str.toList

/-- Method `String.prototype.toLowerCase`, on the letters `A`-`Z`. No other character
lowers to a letter of the keywords it is compared with here. -/
def toLowerCase (str : String) : String :=
  String.mk (str.toList.map Char.toLower)

/-- Line terminators of ECMAScript: LF, CR, LS, PS. The regular-expression `.` matches
every character but these. -/
def isLineTerminator (c : Char) : Bool :=
  c.toNat = 0x0A || c.toNat = 0x0D || c.toNat = 0x2028 || c.toNat = 0x2029

/-- Characters of the regular-expression class `\s`, which are also the ones removed
by `String.prototype.trim`: white space and line terminators. -/
def isWhiteSpace (c : Char) : Bool :=
  c.toNat = 0x09 || c.toNat = 0x0A || c.toNat = 0x0B || c.toNat = 0x0C ||
  c.toNat = 0x0D || c.toNat = 0x20 || c.toNat = 0xA0 || c.toNat = 0x1680 ||
  (0x2000 ≤ c.toNat && c.toNat ≤ 0x200A) ||
  c.toNat = 0x2028 || c.toNat = 0x2029 || c.toNat = 0x202F || c.toNat = 0x205F ||
  c.toNat = 0x3000 || c.toNat = 0xFEFF

/-- Method `String.prototype.trim` on character lists. -/
def trimChars (cs : List Char) : List Char :=
  ((cs.dropWhile isWhiteSpace).reverse.dropWhile isWhiteSpace).reverse

/-- Method `String.prototype.trim`. -/
def trim (str : String) : String :=
  String.mk (trimChars str.toList)

/-! ## The AI command pattern -/

/-- The capture group `(.+)` tried at the start of `cs`: the longest non-empty run of
characters that are not line terminators. -/
def matchGroup (cs : List Char) : Option (List Char) :=
  let run := cs.takeWhile (fun c => !isLineTerminator c)
  if run.isEmpty then none else some run

/-- The tail `\s*(.+)` of the pattern with the backtracking order of a greedy star:
first one more white-space character, and the group at the current position only when
that fails. -/
def matchSpacesGroup : List Char → Option (List Char)
  | [] => none
  | c :: cs =>
    if isWhiteSpace c then
      match matchSpacesGroup cs with
      | some q => some q
      | none => matchGroup (c :: cs)
    else matchGroup (c :: cs)

/-- Expression `text.match(/^\/ai\s+(.+)/i)` followed by `aiMatch[1]`: `none` when the
pattern does not match, the captured group otherwise. The flag `i` makes `a` and `i`
match in either case; the pattern is anchored at the start of the text. -/
def aiCommandRegex (text : String) : Option String :=
  match text.toList with
  | c0 :: c1 :: c2 :: c3 :: rest =>
    if c0 = '/' && (c1 = 'a' || c1 = 'A') && (c2 = 'i' || c2 = 'I') && isWhiteSpace c3 then
      (matchSpacesGroup rest).map String.mk
    else none
  | _ => none

/-! ## The AI gateway -/

/-- Failure of a provider call: the thrown value, of which the code reads only
`error.message` (`none` when the thrown value has no string `message`). -/
structure ProviderError where
  message : Option String
  deriving DecidableEq, Repr

/-- The provider as an oracle: `generateContent model prompt` stands for
`genAI.getGenerativeModel(...)`, `generateContent(prompt)` and `response.text()` with
the model of that name, giving the text or the failure. -/
structure GenAI where
  generateContent : String → String → Except ProviderError String

/-- The list `complexKeywords`. -/
def complexKeywords : List String := ["explain", "why", "how", "analyze", "compare"]

/-- The denial text returned when a limiter refuses. -/
def rateLimitedText : String :=
  "🤖 AI Assistant: I'm getting a lot of requests right now. Please wait a moment before asking another question."

/-- Template of the prompt sent to the first model. -/
def primaryPrompt (question subject : String) : String :=
  "As a study hub AI assistant specializing in " ++ subject ++
  ", provide a helpful response.\n\nQuestion: " ++ question ++
  "\n\nPlease:\n1. Give an educational response that promotes learning\n" ++
  "2. Break down complex ideas\n3. Provide examples if relevant\n" ++
  "4. Suggest related concepts to explore\n" ++
  "5. If question is unclear, ask for clarification politely\n\nResponse:"

/-- Template of the prompt sent to the second model. -/
def secondaryPrompt (question subject : String) : String :=
  "Answer this " ++ subject ++ " question: " ++ question

/-- Template of a successful answer. -/
def formatAnswer (text question subject : String) : String :=
  "🤖 AI Assistant: " ++ text ++ "\n\n*Generated for " ++ subject ++
  " question: \"" ++ question ++ "\"*"

/-- Text of a built-in function of `Object.prototype` when interpolated in a string. -/
def nativeFunctionText (name : String) : String :=
  "function " ++ name ++ "() \x7b [native code] \x7d"

/-- Expression `fallbackResponses[subject]` inside the template literal: the own
properties of the object literal, then the properties every object literal inherits
from `Object.prototype` (all truthy, rendered as a string by the template literal);
`none` stands for `undefined`. -/
def fallbackResponses (subject : String) : Option String :=
  if subject = "Math" then
    some "I'm having trouble accessing math resources right now. For math help, try breaking the problem into smaller steps or check out Khan Academy for similar examples."
  else if subject = "Science" then
    some "Science resources are temporarily unavailable. You might find helpful information on NASA's website or ScienceDaily for current research."
  else if subject = "English" then
    some "Literature resources are experiencing issues. For writing help, try using the Hemingway Editor app or Purdue OWL for grammar guidelines."
  else if subject = "History" then
    some "History archives are temporarily unavailable. The Digital Public Library of America has excellent primary sources you could explore."
  else if subject = "Programming" then
    some "Coding resources are having connection issues. For programming help, Stack Overflow usually has answers to common coding problems."
  else if subject = "default" then
    some "I'm having technical difficulties. In the meantime, you could try rephrasing your question or breaking it down into smaller parts."
  else if subject = "constructor" then some (nativeFunctionText "Object")
  else if subject = "__proto__" then some "[object Object]"
  else if subject ∈ ["toString", "toLocaleString", "valueOf", "hasOwnProperty",
      "isPrototypeOf", "propertyIsEnumerable", "__defineGetter__", "__defineSetter__",
      "__lookupGetter__", "__lookupSetter__"] then
    some (nativeFunctionText subject)
  else none

/-- The final `return` of the outer `catch` block:
`fallbackResponses[subject] || fallbackResponses.default` behind the assistant tag. -/
def fallbackAnswer (subject : String) : String :=
  "🤖 AI Assistant: " ++
    (match fallbackResponses subject with
     | some text => text
     | none => (fallbackResponses "default").getD "")

/-- Outcome of one call of `getAIResponse`: the state afterwards, the value the
promise resolves to (`none` when it rejects), and the provider calls made, in order,
as `(model, prompt)`. -/
structure AIOutcome where
  state : State
  result : Option String
  calls : List (String × String)

/-- Function `getAIResponse(question, subject, userId)`. `nowUser` and `nowGlobal` are
the clock readings of the two limiters; the second limiter is consulted only when the
first allows (`||` short-circuits). The promise rejects only when the outer `catch`
block itself throws, on `error.message.includes` of a value without `message`. -/
def getAIResponse (genAI : GenAI) (s : State) (question subject userId : String)
    (nowUser nowGlobal : Int) : AIOutcome :=
  let r1 := canMakeAIRequest s userId nowUser
  if !r1.1 then
    { state := r1.2, result := some rateLimitedText, calls := [] }
  else
    let r2 := canMakeGlobalAIRequest r1.2 nowGlobal
    if !r2.1 then
      { state := r2.2, result := some rateLimitedText, calls := [] }
    else
      let isComplex := complexKeywords.any (fun keyword => includes (toLowerCase question) keyword)
      let modelToUse := if isComplex then "gemini-1.5-pro" else "gemini-1.5-flash"
      let call1 := (modelToUse, primaryPrompt question subject)
      match genAI.generateContent call1.1 call1.2 with
      | .ok text =>
        { state := r2.2, result := some (formatAnswer text question subject), calls := [call1] }
      | .error error =>
        match error.message with
        | none => { state := r2.2, result := none, calls := [call1] }
        | some msg =>
          if includes msg "404" || includes msg "not found" then
            let call2 := ("gemini-1.5-flash-8b", secondaryPrompt question subject)
            match genAI.generateContent call2.1 call2.2 with
            | .ok text =>
              { state := r2.2, result := some (formatAnswer text question subject),
                calls := [call1, call2] }
            | .error _ =>
              { state := r2.2, result := some (fallbackAnswer subject), calls := [call1, call2] }
          else
            { state := r2.2, result := some (fallbackAnswer subject), calls := [call1] }

/-! ## Outbound events -/

/-- One entry of `roomStats` in the `admin-stats` payload. -/
structure RoomStat where
  id : String
  name : String
  activeUsers : Nat
  messageCount : Nat
  deriving DecidableEq, Repr

/-- Payload of the `admin-stats` event. -/
structure Stats where
  totalUsers : Nat
  totalRooms : Nat
  roomStats : List RoomStat
  deriving DecidableEq, Repr

/-- Event name and payload of an emission. -/
inductive Payload where
  | error (text : String)
  | roomHistory (history : List Message)
  | userJoined (username message : String) (timestamp : Int)
  | userLeft (username message : String) (timestamp : Int)
  | usersUpdate (userList : List String)
  | message (msg : Message)
  | typing (username : String) (isTyping : Bool)
  | adminStats (stats : Stats)
  deriving DecidableEq, Repr

/-- One emission with its scope: `socket.emit` (the sender only), `io.to(room).emit`
(the whole room) or `socket.to(room).emit` (the room but the sender). -/
inductive Emit where
  | toSocket (socketId : String) (payload : Payload)
  | toRoom (room : String) (payload : Payload)
  | toRoomExcept (room : String) (socketId : String) (payload : Payload)
  deriving DecidableEq, Repr

/-! ## Handlers -/

/-- The `userList` of `updateRoomUsers`: each member id resolved through `users`,
`filter(Boolean)` dropping the ids without a session (and empty names). -/
def userList (s : State) (roomData : Room) : List String :=
  roomData.users.filterMap (fun socketId =>
    match s.users.get socketId with
    | some user => if user.username = "" then none else some user.username
    | none => none)

/-- Function `updateRoomUsers(room)`: the `users-update` emission, none for a room id
that is not in `rooms`. -/
def updateRoomUsers (s : State) (room : String) : List Emit :=
  match s.rooms.get room with
  | some roomData => [Emit.toRoom room (Payload.usersUpdate (userList s roomData))]
  | none => []

/-- Handler of `join` with payload `{ username, room }`; `stamp` is the reading of
`new Date()`. A missing field is the empty string (both are falsy). -/
def onJoin (s : State) (socketId username room : String) (stamp : Int) : State × List Emit :=
  if username = "" || room = "" then
    (s, [Emit.toSocket socketId (Payload.error "Username and room are required")])
  else
    -- Store user information
    let s1 : State :=
      let user : User :=
        { username := username, room := room, isAdmin := decide (username ∈ adminUsers) }
      { s with users := s.users.set socketId user }
    -- Add user to room
    let s2 : State :=
      match s1.rooms.get room with
      | some roomData =>
        let roomData1 : Room := { roomData with users := JsSet.add roomData.users socketId }
        { s1 with rooms := s1.rooms.set room roomData1 }
      | none => s1
    -- Send room history
    let roomMessages := (s2.messages.get room).getD []
    (s2, [Emit.toSocket socketId (Payload.roomHistory roomMessages),
          Emit.toRoomExcept room socketId
            (Payload.userJoined username (username ++ " joined the study room") stamp)]
         ++ updateRoomUsers s2 room)

/-- Statements `if (!messages.has(room)) messages.set(room, []);` and
`messages.get(room).push(msg)`. -/
def pushMessage (s : State) (room : String) (msg : Message) : State :=
  let messages1 := if s.messages.has room then s.messages else s.messages.set room []
  { s with messages := messages1.set room ((messages1.get room).getD [] ++ [msg]) }

/-- Statement `messages.get(room).push(msg)` alone, as used for the answer of an AI
exchange. Without a history for `room` the call would throw; the question pushed just
before has created one. -/
def pushReply (s : State) (room : String) (msg : Message) : State :=
  match s.messages.get room with
  | some history => { s with messages := s.messages.set room (history ++ [msg]) }
  | none => s

/-- Statement `rooms.get(room).messageCount += delta` under `if (rooms.has(room))`. In
the `catch` branch of the AI exchange the guard is missing: for a room id outside
`rooms` that statement throws after the push, leaving the state as it is here. -/
def addMessageCount (s : State) (room : String) (delta : Nat) : State :=
  match s.rooms.get room with
  | some roomData =>
    let roomData1 : Room := { roomData with messageCount := roomData.messageCount + delta }
    { s with rooms := s.rooms.set room roomData1 }
  | none => s

/-- Clock readings taken while one `message` event is handled: `idNow` and `stamp` for
the message (or question) object, `limiterNow` and `globalNow` inside the two limiters,
`replyNow` and `replyStamp` for the answer object of an AI exchange. -/
structure Clock where
  idNow : Int
  stamp : Int
  limiterNow : Int
  globalNow : Int
  replyNow : Int
  replyStamp : Int
  deriving DecidableEq, Repr

/-- The object `message` of the block "Regular message processing". -/
def plainMessageObject (user : User) (text : String) (fileUrl fileName : Option String)
    (clock : Clock) : Message :=
  { id := clock.idNow, username := user.username, text := text, fileUrl := fileUrl,
    fileName := fileName, timestamp := clock.stamp, isAI := false }

/-- The block "Regular message processing" of the `message` handler. -/
def plainMessage (s : State) (user : User) (text : String) (fileUrl fileName : Option String)
    (clock : Clock) : State × List Emit :=
  let message := plainMessageObject user text fileUrl fileName clock
  -- Add to room messages
  let s1 := pushMessage s user.room message
  -- Update message count
  (addMessageCount s1 user.room 1, [Emit.toRoom user.room (Payload.message message)])

/-- The object `userMessage` of an AI exchange: the question as it is shown in the chat. -/
def questionMessage (user : User) (question : String) (clock : Clock) : Message :=
  { id := clock.idNow, username := user.username, text := "🤖 Asked AI: " ++ question,
    fileUrl := none, fileName := none, timestamp := clock.stamp, isAI := false }

/-- Text of the answer message: the value of `getAIResponse`, or the connectivity-error
text of the `catch` branch when the call rejects. -/
def replyText : Option String → String
  | some aiResponse => aiResponse
  | none => "❌ Sorry, I'm having trouble connecting to the AI service. Please try again later."

/-- The object `aiMessage` (or `errorMessage`) of an AI exchange. -/
def replyMessage (text : String) (clock : Clock) : Message :=
  { id := clock.replyNow + 1, username := "AI Assistant", text := text,
    fileUrl := none, fileName := none, timestamp := clock.replyStamp, isAI := true }

/-- The block of the `message` handler run for an AI command with question `question`:
the question message, the call of `getAIResponse`, then the answer message (or the
connectivity-error message when the call rejects) and the count of two messages. The
`await` is taken in one step. -/
def aiExchange (genAI : GenAI) (s : State) (socketId : String) (user : User)
    (question : String) (clock : Clock) : State × List Emit :=
  let room := user.room
  -- First, display the user's question in the chat
  let userMessage := questionMessage user question clock
  let s1 := pushMessage s room userMessage
  let out := getAIResponse genAI s1 question room socketId clock.limiterNow clock.globalNow
  let aiMessage := replyMessage (replyText out.result) clock
  let s2 := pushReply out.state room aiMessage
  -- Count both user and AI messages
  (addMessageCount s2 room 2,
   [Emit.toRoom room (Payload.message userMessage),
    Emit.toRoomExcept room socketId (Payload.typing "AI Assistant" true),
    Emit.toRoom room (Payload.message aiMessage),
    Emit.toRoomExcept room socketId (Payload.typing "AI Assistant" false)])

/-- Handler of `message` with payload `{ text, fileUrl, fileName }`. -/
def onMessage (genAI : GenAI) (s : State) (socketId text : String)
    (fileUrl fileName : Option String) (clock : Clock) : State × List Emit :=
  match s.users.get socketId with
  | none => (s, [])
  | some user =>
    match aiCommandRegex text with
    | some question =>
      if trim question = "" then plainMessage s user text fileUrl fileName clock
      else aiExchange genAI s socketId user question clock
    | none => plainMessage s user text fileUrl fileName clock

/-- Handler of `typing` with payload `{ isTyping }`. -/
def onTyping (s : State) (socketId : String) (isTyping : Bool) : State × List Emit :=
  match s.users.get socketId with
  | none => (s, [])
  | some user =>
    (s, [Emit.toRoomExcept user.room socketId (Payload.typing user.username isTyping)])

/-- Handler of `disconnect`; `stamp` is the reading of `new Date()`. -/
def onDisconnect (s : State) (socketId : String) (stamp : Int) : State × List Emit :=
  match s.users.get socketId with
  | none => (s, [])
  | some user =>
    -- Remove from room
    let s1 : State :=
      match s.rooms.get user.room with
      | some roomData =>
        let roomData1 : Room :=
          { roomData with users := JsSet.delete roomData.users socketId }
        { s with rooms := s.rooms.set user.room roomData1 }
      | none => s
    -- Notify others, update user list, remove user
    ({ s1 with users := s1.users.delete socketId },
     [Emit.toRoomExcept user.room socketId
        (Payload.userLeft user.username (user.username ++ " left the study room") stamp)]
     ++ updateRoomUsers s1 user.room)

/-- Handler of `admin-stats`. -/
def onAdminStats (s : State) (socketId : String) : State × List Emit :=
  match s.users.get socketId with
  | some user =>
    if user.isAdmin then
      (s, [Emit.toSocket socketId (Payload.adminStats
        { totalUsers := s.users.size,
          totalRooms := s.rooms.size,
          roomStats := s.rooms.map (fun entry =>
            { id := entry.1, name := entry.2.name, activeUsers := entry.2.users.length,
              messageCount := entry.2.messageCount }) })])
    else (s, [])
  | none => (s, [])

/-! ## Event sequences -/

/-- Inbound socket event with the connection it arrives on, its payload and the clock
readings (and provider behaviour) of its handling. -/
inductive Event where
  | join (socketId username room : String) (stamp : Int)
  | message (socketId text : String) (fileUrl fileName : Option String) (clock : Clock)
      (genAI : GenAI)
  | typing (socketId : String) (isTyping : Bool)
  | disconnect (socketId : String) (stamp : Int)
  | adminStats (socketId : String)

/-- Handling of one event. -/
def step (s : State) : Event → State × List Emit
  | Event.join socketId username room stamp => onJoin s socketId username room stamp
  | Event.message socketId text fileUrl fileName clock genAI =>
    onMessage genAI s socketId text fileUrl fileName clock
  | Event.typing socketId isTyping => onTyping s socketId isTyping
  | Event.disconnect socketId stamp => onDisconnect s socketId stamp
  | Event.adminStats socketId => onAdminStats s socketId

/-- State after handling a sequence of events in order. -/
def run (s : State) (events : List Event) : State :=
  events.foldl (fun st ev => (step st ev).1) s

/-- Emissions of a sequence of events, in order. -/
def emitted : State → List Event → List Emit
  | _, [] => []
  | s, ev :: rest => (step s ev).2 ++ emitted (step s ev).1 rest

/-- Member set of a room (`rooms.get(room).users`), empty for an id outside `rooms`. -/
def members (s : State) (room : String) : JsSet :=
  match s.rooms.get room with
  | some roomData => roomData.users
  | none => []

/-- Counter of a room (`rooms.get(room).messageCount`), zero for an id outside `rooms`. -/
def messageCount (s : State) (room : String) : Nat :=
  match s.rooms.get room with
  | some roomData => roomData.messageCount
  | none => 0

/-- History of a room (`messages.get(room) || []`). -/
def history (s : State) (room : String) : List Message :=
  (s.messages.get room).getD []

/-- Answers of `canMakeAIRequest` over a sequence of requests `(userId, now)`. -/
def userRequests (s : State) : List (String × Int) → List Bool
  | [] => []
  | req :: rest =>
    (canMakeAIRequest s req.1 req.2).1 :: userRequests (canMakeAIRequest s req.1 req.2).2 rest

/-- Answers of `canMakeGlobalAIRequest` over a sequence of clock readings. -/
def globalRequests (s : State) : List Int → List Bool
  | [] => []
  | now :: rest =>
    (canMakeGlobalAIRequest s now).1 :: globalRequests (canMakeGlobalAIRequest s now).2 rest

/-- The ids of the catalog rooms. -/
def catalogIds : List String := defaultRooms.map (fun r => r.1)

/-- Shape of the texts that open an AI exchange: `/`, then `a` and `i` in either case,
then one or more white-space characters, then a character that is not white space
(followed by anything). It is the pattern `^/ai\s+(.+)`, matched without regard to
case, with a capture that is not blank. -/
def IsAiCommandText (text : String) : Prop :=
  ∃ (c1 c2 : Char) (ws : List Char) (c : Char) (rest : List Char),
    text.toList = '/' :: c1 :: c2 :: (ws ++ c :: rest) ∧
    (c1 = 'a' ∨ c1 = 'A') ∧ (c2 = 'i' ∨ c2 = 'I') ∧
    ws ≠ [] ∧ (∀ w ∈ ws, isWhiteSpace w = true) ∧ isWhiteSpace c = false

/-- The connection an event arrives on (`socket.id`). -/
def Event.socketId : Event → String
  | Event.join socketId _ _ _ => socketId
  | Event.message socketId _ _ _ _ _ => socketId
  | Event.typing socketId _ => socketId
  | Event.disconnect socketId _ => socketId
  | Event.adminStats socketId => socketId

/-! ## The AI exchange in two steps

The handler of `message` suspends at `await getAIResponse(...)`: other events may be
handled between the question and the answer. `aiExchangeBegin` is what runs before the
suspension and `aiExchangeResume` what runs after it, with the room and the socket id
captured before; `aiExchange` is the two in a row. -/

/-- Part of the AI exchange that runs before the handler suspends: the question message
is stored and broadcast, the typing notice sent, and `getAIResponse` consults the
limiters. The third component is what the promise of `getAIResponse` settles to. -/
def aiExchangeBegin (genAI : GenAI) (s : State) (socketId : String) (user : User)
    (question : String) (clock : Clock) : State × List Emit × Option String :=
  let room := user.room
  let userMessage := questionMessage user question clock
  let s1 := pushMessage s room userMessage
  let out := getAIResponse genAI s1 question room socketId clock.limiterNow clock.globalNow
  (out.state,
   [Emit.toRoom room (Payload.message userMessage),
    Emit.toRoomExcept room socketId (Payload.typing "AI Assistant" true)],
   out.result)

/-- Part of the AI exchange that runs when the promise has settled to `result`, in
whatever state the server is in by then, for the `room` and `socketId` captured when
the message arrived. Without a history for `room` both `push` calls throw and only the
`finally` block has an effect. -/
def aiExchangeResume (s : State) (socketId room : String) (result : Option String)
    (clock : Clock) : State × List Emit :=
  match s.messages.get room with
  | none => (s, [Emit.toRoomExcept room socketId (Payload.typing "AI Assistant" false)])
  | some _ =>
    let aiMessage := replyMessage (replyText result) clock
    let s2 := pushReply s room aiMessage
    (addMessageCount s2 room 2,
     [Emit.toRoom room (Payload.message aiMessage),
      Emit.toRoomExcept room socketId (Payload.typing "AI Assistant" false)])

/-- State after a sequence of calls `getAIResponse(question, subject, userId)` given as
`(userId, now)`, both limiters reading the clock at `now`. -/
def aiRequests (genAI : GenAI) (s : State) : List (String × Int) → State
  | [] => s
  | req :: rest =>
    aiRequests genAI (getAIResponse genAI s "q" "Math" req.1 req.2 req.2).state rest

/-! ## Lemmas on maps and sets -/

theorem JsMap.get_set_self {α : Type} (m : JsMap α) (k : String) (v : α) :
    JsMap.get (JsMap.set m k v) k = some v := by
  induction m with
  | nil => simp [JsMap.set, JsMap.get]
  | cons hd tl ih =>
    obtain ⟨k0, v0⟩ := hd
    by_cases h : k0 = k
    · simp [JsMap.set, JsMap.get, h]
    · simp [JsMap.set, JsMap.get, h, ih]

theorem JsMap.get_set_of_ne {α : Type} (m : JsMap α) (k k1 : String) (v : α) (hne : k ≠ k1) :
    JsMap.get (JsMap.set m k v) k1 = JsMap.get m k1 := by
  induction m with
  | nil => simp [JsMap.set, JsMap.get, hne]
  | cons hd tl ih =>
    obtain ⟨k0, v0⟩ := hd
    by_cases h : k0 = k
    · subst h
      simp [JsMap.set, JsMap.get, hne]
    · by_cases h1 : k0 = k1
      · subst h1
        simp [JsMap.set, JsMap.get, h]
      · simp [JsMap.set, JsMap.get, h, h1, ih]

theorem JsMap.get_delete_self {α : Type} (m : JsMap α) (k : String) :
    JsMap.get (JsMap.delete m k) k = none := by
  induction m with
  | nil => simp [JsMap.delete, JsMap.get]
  | cons hd tl ih =>
    obtain ⟨k0, v0⟩ := hd
    by_cases h : k0 = k
    · simpa [JsMap.delete, List.filter, h] using ih
    · simpa [JsMap.delete, List.filter, JsMap.get, h] using ih

theorem JsMap.get_delete_of_ne {α : Type} (m : JsMap α) (k k1 : String) (hne : k ≠ k1) :
    JsMap.get (JsMap.delete m k) k1 = JsMap.get m k1 := by
  induction m with
  | nil => simp [JsMap.delete, JsMap.get]
  | cons hd tl ih =>
    obtain ⟨k0, v0⟩ := hd
    by_cases h : k0 = k
    · subst h
      simpa [JsMap.delete, List.filter, JsMap.get, hne] using ih
    · by_cases h1 : k0 = k1
      · subst h1
        simp [JsMap.delete, List.filter, JsMap.get, h]
      · simpa [JsMap.delete, List.filter, JsMap.get, h, h1] using ih

theorem JsMap.keys_set_of_get {α : Type} (m : JsMap α) (k : String) (v v0 : α)
    (h : JsMap.get m k = some v0) :
    (JsMap.set m k v).map Prod.fst = m.map Prod.fst := by
  induction m with
  | nil => simp [JsMap.get] at h
  | cons hd tl ih =>
    obtain ⟨k0, w0⟩ := hd
    by_cases hk : k0 = k
    · simp [JsMap.set, hk]
    · simp [JsMap.get, hk] at h
      simp [JsMap.set, hk, ih h]

theorem JsMap.get_isSome_iff_mem_keys {α : Type} (m : JsMap α) (k : String) :
    (JsMap.get m k).isSome = true ↔ k ∈ m.map Prod.fst := by
  induction m with
  | nil => simp [JsMap.get]
  | cons hd tl ih =>
    obtain ⟨k0, w0⟩ := hd
    by_cases hk : k0 = k
    · simp [JsMap.get, hk]
    · have hk1 : ¬ k = k0 := fun h => hk h.symm
      simp [JsMap.get, hk, hk1, ih]

theorem JsSet.mem_add (s : JsSet) (x y : String) :
    y ∈ JsSet.add s x ↔ y ∈ s ∨ y = x := by
  unfold JsSet.add
  by_cases h : x ∈ s
  · simp only [h, if_true]
    constructor
    · intro hy; exact Or.inl hy
    · rintro (hy | hy)
      · exact hy
      · exact hy ▸ h
  · simp [h]

theorem JsSet.mem_delete (s : JsSet) (x y : String) :
    y ∈ JsSet.delete s x ↔ y ∈ s ∧ y ≠ x := by
  simp [JsSet.delete]

/-! ## Lemmas on `join` and `disconnect` -/

theorem onJoin_state (s : State) (c u r : String) (t : Int) (hu : u ≠ "") (hr : r ≠ "") :
    (onJoin s c u r t).1 =
      match s.rooms.get r with
      | some roomData =>
        { s with
          users := s.users.set c { username := u, room := r, isAdmin := decide (u ∈ adminUsers) },
          rooms := s.rooms.set r { roomData with users := JsSet.add roomData.users c } }
      | none =>
        { s with
          users := s.users.set c
            { username := u, room := r, isAdmin := decide (u ∈ adminUsers) } } := by
  unfold onJoin
  simp only [hu, hr, decide_False, Bool.or_self, Bool.false_eq_true, if_false]

theorem onJoin_users_get_self (s : State) (c u r : String) (t : Int) (hu : u ≠ "")
    (hr : r ≠ "") :
    (onJoin s c u r t).1.users.get c =
      some { username := u, room := r, isAdmin := decide (u ∈ adminUsers) } := by
  rw [onJoin_state s c u r t hu hr]
  cases h : s.rooms.get r <;> simp [JsMap.get_set_self]

theorem onJoin_members_self (s : State) (c u r : String) (t : Int) (hu : u ≠ "") (hr : r ≠ "")
    (hroom : s.rooms.has r = true) : c ∈ members (onJoin s c u r t).1 r := by
  rw [onJoin_state s c u r t hu hr]
  unfold JsMap.has at hroom
  cases h : s.rooms.get r with
  | none => simp [h] at hroom
  | some roomData => simp [members, JsMap.get_set_self, JsSet.mem_add]

theorem onJoin_members_of_ne (s : State) (c u r r1 : String) (t : Int) (hne : r ≠ r1) :
    members (onJoin s c u r t).1 r1 = members s r1 := by
  by_cases hu : u = ""
  · simp [onJoin, hu]
  by_cases hr : r = ""
  · simp [onJoin, hr]
  rw [onJoin_state s c u r t hu hr]
  cases h : s.rooms.get r with
  | none => simp [members]
  | some roomData => simp [members, JsMap.get_set_of_ne _ _ _ _ hne]

theorem onJoin_rooms_has (s : State) (c u r r1 : String) (t : Int) :
    (onJoin s c u r t).1.rooms.has r1 = s.rooms.has r1 := by
  by_cases hu : u = ""
  · simp [onJoin, hu]
  by_cases hr : r = ""
  · simp [onJoin, hr]
  rw [onJoin_state s c u r t hu hr]
  cases h : s.rooms.get r with
  | none => simp
  | some roomData =>
    by_cases hne : r = r1
    · subst hne
      simp [JsMap.has, JsMap.get_set_self, h]
    · simp [JsMap.has, JsMap.get_set_of_ne _ _ _ _ hne]

theorem onDisconnect_users_get_self (s : State) (c : String) (t : Int) :
    (onDisconnect s c t).1.users.get c = none := by
  unfold onDisconnect
  cases h : s.users.get c with
  | none => simp [h]
  | some user =>
    cases h1 : s.rooms.get user.room <;> simp [JsMap.get_delete_self]

theorem onDisconnect_members_of_ne (s : State) (c r1 : String) (t : Int) (user : User)
    (huser : s.users.get c = some user) (hne : user.room ≠ r1) :
    members (onDisconnect s c t).1 r1 = members s r1 := by
  unfold onDisconnect
  cases h1 : s.rooms.get user.room with
  | none => simp [huser, h1, members]
  | some roomData => simp [huser, h1, members, JsMap.get_set_of_ne _ _ _ _ hne]

/-! ## Claims -/

/-- C1 (code defect). The `join` handler never removes the connection from the room of
its previous session: for every state in which `A` is a room, after connection `c`
joins `A` and then joins a different room `B`, the session of `c` is bound to `B` and
yet the id of `c` is still in the member set of `A`. -/
theorem join_second_room_keeps_first_membership (s : State) (c u1 u2 A B : String)
    (t1 t2 : Int) (hu1 : u1 ≠ "") (hu2 : u2 ≠ "") (hA : A ≠ "") (hB : B ≠ "")
    (hAB : A ≠ B) (hroom : s.rooms.has A = true) :
    c ∈ members (run s [Event.join c u1 A t1, Event.join c u2 B t2]) A ∧
    ((run s [Event.join c u1 A t1, Event.join c u2 B t2]).users.get c).map User.room
      = some B := by
  simp only [run, List.foldl, step]
  constructor
  · rw [onJoin_members_of_ne _ c u2 B A t2 (fun h => hAB h.symm)]
    exact onJoin_members_self s c u1 A t1 hu1 hA hroom
  · rw [onJoin_users_get_self _ c u2 B t2 hu2 hB]
    rfl

/-- Witness of C1 on the start-up state: `"c"` joins `"Math"`, then `"Science"`. -/
theorem join_second_room_keeps_first_membership_witness :
    "c" ∈ members (run (init 0) [Event.join "c" "alice" "Math" 1,
      Event.join "c" "alice" "Science" 2]) "Math" ∧
    ((run (init 0) [Event.join "c" "alice" "Math" 1,
      Event.join "c" "alice" "Science" 2]).users.get "c").map User.room = some "Science" :=
  join_second_room_keeps_first_membership (init 0) "c" "alice" "alice" "Math" "Science" 1 2
    (by decide) (by decide) (by decide) (by decide) (by decide) (by decide)

/-- C2 (code defect). The `disconnect` handler removes the connection from the room of
its current session only: for every state in which `A` is a room, after connection `c`
joins `A`, joins a different room `B` and disconnects, `c` has no session left and yet
its id is still in the member set of `A`. -/
theorem disconnect_keeps_membership_of_earlier_room (s : State) (c u1 u2 A B : String)
    (t1 t2 t3 : Int) (hu1 : u1 ≠ "") (hu2 : u2 ≠ "") (hA : A ≠ "") (hB : B ≠ "")
    (hAB : A ≠ B) (hroom : s.rooms.has A = true) :
    (run s [Event.join c u1 A t1, Event.join c u2 B t2, Event.disconnect c t3]).users.get c
      = none ∧
    c ∈ members
      (run s [Event.join c u1 A t1, Event.join c u2 B t2, Event.disconnect c t3]) A := by
  simp only [run, List.foldl, step]
  constructor
  · exact onDisconnect_users_get_self _ c t3
  · rw [onDisconnect_members_of_ne _ c A t3 _ (onJoin_users_get_self _ c u2 B t2 hu2 hB)
      (fun h => hAB h.symm)]
    rw [onJoin_members_of_ne _ c u2 B A t2 (fun h => hAB h.symm)]
    exact onJoin_members_self s c u1 A t1 hu1 hA hroom

/-- Witness of C2 on the start-up state: `"c"` joins `"Math"`, then `"Science"`, then
disconnects. -/
theorem disconnect_keeps_membership_of_earlier_room_witness :
    (run (init 0) [Event.join "c" "alice" "Math" 1, Event.join "c" "alice" "Science" 2,
      Event.disconnect "c" 3]).users.get "c" = none ∧
    "c" ∈ members (run (init 0) [Event.join "c" "alice" "Math" 1,
      Event.join "c" "alice" "Science" 2, Event.disconnect "c" 3]) "Math" :=
  disconnect_keeps_membership_of_earlier_room (init 0) "c" "alice" "alice" "Math" "Science"
    1 2 3 (by decide) (by decide) (by decide) (by decide) (by decide) (by decide)

/-! ## Lemmas on the rate limiters -/

theorem canMakeAIRequest_get_of_ne (s : State) (u v : String) (t : Int) (hne : u ≠ v) :
    (canMakeAIRequest s u t).2.aiRateLimit.get v = s.aiRateLimit.get v := by
  unfold canMakeAIRequest
  simp only []
  split_ifs <;> simp [JsMap.get_set_of_ne _ _ _ _ hne]

theorem canMakeAIRequest_globalAIRateLimit (s : State) (u : String) (t : Int) :
    (canMakeAIRequest s u t).2.globalAIRateLimit = s.globalAIRateLimit := by
  unfold canMakeAIRequest
  simp only []
  split_ifs <;> simp

theorem canMakeAIRequest_no_reset (s : State) (u : String) (t : Int) (c : Nat) (lr w : Int)
    (hget : s.aiRateLimit.get u = some { count := c, lastRequest := lr, lastReset := w })
    (hwin : t - w ≤ 60000) :
    (canMakeAIRequest s u t).1 = decide (c < 5) ∧
    (canMakeAIRequest s u t).2.aiRateLimit.get u =
      some (if c < 5 then { count := c + 1, lastRequest := t, lastReset := w }
            else { count := c, lastRequest := lr, lastReset := w }) := by
  have hnot : ¬ (t - w > 60000) := by omega
  unfold canMakeAIRequest
  simp only [hget, Option.getD_some, hnot, if_false, Option.isSome_some, if_true]
  by_cases hc : c < 5
  · have h5 : ¬ (c ≥ 5) := by omega
    simp [hc, h5, JsMap.get_set_self]
  · have h5 : c ≥ 5 := by omega
    simp [hc, h5, JsMap.get_set_self]

theorem canMakeAIRequest_reset (s : State) (u : String) (t : Int) (c : Nat) (lr w : Int)
    (hget : s.aiRateLimit.get u = some { count := c, lastRequest := lr, lastReset := w })
    (hwin : t - w > 60000) :
    (canMakeAIRequest s u t).1 = true ∧
    (canMakeAIRequest s u t).2.aiRateLimit.get u =
      some { count := 1, lastRequest := t, lastReset := t } := by
  unfold canMakeAIRequest
  simp [hget, hwin, JsMap.get_set_self]

theorem canMakeAIRequest_first (s : State) (u : String) (t : Int)
    (hget : s.aiRateLimit.get u = none) :
    (canMakeAIRequest s u t).1 = true ∧
    (canMakeAIRequest s u t).2.aiRateLimit.get u =
      some { count := 1, lastRequest := t, lastReset := t } := by
  unfold canMakeAIRequest
  simp [hget, JsMap.get_set_self]

theorem canMakeGlobalAIRequest_no_reset (s : State) (t : Int) (c : Nat) (w : Int)
    (hg : s.globalAIRateLimit = { count := c, lastReset := w }) (hwin : t - w ≤ 60000) :
    (canMakeGlobalAIRequest s t).1 = decide (c < 30) ∧
    (canMakeGlobalAIRequest s t).2.globalAIRateLimit =
      (if c < 30 then { count := c + 1, lastReset := w } else { count := c, lastReset := w }) := by
  have hnot : ¬ (t - w > 60000) := by omega
  unfold canMakeGlobalAIRequest
  simp only [hg, hnot, if_false]
  by_cases hc : c < 30
  · have h30 : ¬ (c ≥ 30) := by omega
    simp [hc, h30]
  · have h30 : c ≥ 30 := by omega
    simp [hc, h30]

theorem canMakeGlobalAIRequest_reset (s : State) (t : Int) (c : Nat) (w : Int)
    (hg : s.globalAIRateLimit = { count := c, lastReset := w }) (hwin : t - w > 60000) :
    (canMakeGlobalAIRequest s t).1 = true ∧
    (canMakeGlobalAIRequest s t).2.globalAIRateLimit = { count := 1, lastReset := t } := by
  unfold canMakeGlobalAIRequest
  simp [hg, hwin]

theorem userRequests_no_reset (u : String) (w : Int) :
    ∀ (reqs : List (String × Int)) (s : State) (c : Nat) (lr : Int),
      s.aiRateLimit.get u = some { count := c, lastRequest := lr, lastReset := w } →
      (∀ p ∈ reqs, p.1 = u → p.2 - w ≤ 60000) →
      ∀ (i : Nat) (p : String × Int), reqs[i]? = some p → p.1 = u →
        (userRequests s reqs)[i]? =
          some (decide (c + (reqs.take i).countP (fun q => decide (q.1 = u)) < 5)) := by
  intro reqs
  induction reqs with
  | nil => intro s c lr _ _ i p hp; simp at hp
  | cons q rest ih =>
    intro s c lr hget hwin i p hp hpu
    obtain ⟨qu, qt⟩ := q
    have hwin1 : ∀ p ∈ rest, p.1 = u → p.2 - w ≤ 60000 :=
      fun p hp1 => hwin p (List.mem_cons_of_mem _ hp1)
    by_cases hq : qu = u
    · subst hq
      have h := canMakeAIRequest_no_reset s qu qt c lr w hget
        (hwin (qu, qt) (List.mem_cons_self _ _) rfl)
      cases i with
      | zero => simp [userRequests, h.1]
      | succ i =>
        simp only [List.getElem?_cons_succ] at hp
        by_cases hc : c < 5
        · have hget1 := h.2
          simp only [hc, if_true] at hget1
          have := ih _ (c + 1) qt hget1 hwin1 i p hp hpu
          simp only [userRequests, List.getElem?_cons_succ, this, List.take_succ_cons,
            List.countP_cons, decide_True, if_true, Option.some.injEq, decide_eq_decide]
          omega
        · have hget1 := h.2
          simp only [hc, if_false] at hget1
          have := ih _ c lr hget1 hwin1 i p hp hpu
          simp only [userRequests, List.getElem?_cons_succ, this, List.take_succ_cons,
            List.countP_cons, decide_True, if_true, Option.some.injEq, decide_eq_decide]
          omega
    · cases i with
      | zero =>
        simp only [List.getElem?_cons_zero, Option.some.injEq] at hp
        subst hp
        exact absurd hpu hq
      | succ i =>
        simp only [List.getElem?_cons_succ] at hp
        have hget1 : (canMakeAIRequest s qu qt).2.aiRateLimit.get u =
            some { count := c, lastRequest := lr, lastReset := w } := by
          rw [canMakeAIRequest_get_of_ne s qu u qt hq]; exact hget
        have := ih _ c lr hget1 hwin1 i p hp hpu
        simp [userRequests, this, List.countP_cons, hq]

theorem userRequests_first_window (u : String) (t0 : Int) :
    ∀ (reqs : List (String × Int)) (s : State),
      s.aiRateLimit.get u = none →
      (∀ p, reqs.find? (fun q => decide (q.1 = u)) = some p → p.2 = t0) →
      (∀ p ∈ reqs, p.1 = u → p.2 - t0 ≤ 60000) →
      ∀ (i : Nat) (p : String × Int), reqs[i]? = some p → p.1 = u →
        (userRequests s reqs)[i]? =
          some (decide ((reqs.take i).countP (fun q => decide (q.1 = u)) < 5)) := by
  intro reqs
  induction reqs with
  | nil => intro s _ _ _ i p hp; simp at hp
  | cons q rest ih =>
    intro s hget hfirst hwin i p hp hpu
    obtain ⟨qu, qt⟩ := q
    have hwin1 : ∀ p ∈ rest, p.1 = u → p.2 - t0 ≤ 60000 :=
      fun p hp1 => hwin p (List.mem_cons_of_mem _ hp1)
    by_cases hq : qu = u
    · subst hq
      have hq0 : qt = t0 := hfirst (qu, qt) (by simp [List.find?])
      subst hq0
      have h := canMakeAIRequest_first s qu qt hget
      cases i with
      | zero => simp [userRequests, h.1]
      | succ i =>
        simp only [List.getElem?_cons_succ] at hp
        have := userRequests_no_reset qu qt rest _ 1 qt h.2 hwin1 i p hp hpu
        simp only [userRequests, List.getElem?_cons_succ, this, List.take_succ_cons,
          List.countP_cons, decide_True, if_true, Option.some.injEq, decide_eq_decide]
        omega
    · cases i with
      | zero =>
        simp only [List.getElem?_cons_zero, Option.some.injEq] at hp
        subst hp
        exact absurd hpu hq
      | succ i =>
        simp only [List.getElem?_cons_succ] at hp
        have hget1 : (canMakeAIRequest s qu qt).2.aiRateLimit.get u = none := by
          rw [canMakeAIRequest_get_of_ne s qu u qt hq]; exact hget
        have hfirst1 : ∀ p, rest.find? (fun q => decide (q.1 = u)) = some p → p.2 = t0 := by
          intro p hp1
          apply hfirst p
          simp [List.find?, hq, hp1]
        have := ih _ hget1 hfirst1 hwin1 i p hp hpu
        simp [userRequests, this, List.countP_cons, hq]

theorem globalRequests_no_reset (w : Int) :
    ∀ (times : List Int) (s : State) (c : Nat),
      s.globalAIRateLimit = { count := c, lastReset := w } →
      (∀ t ∈ times, t - w ≤ 60000) →
      ∀ (i : Nat), i < times.length →
        (globalRequests s times)[i]? = some (decide (c + i < 30)) := by
  intro times
  induction times with
  | nil => intro s c _ _ i hi; simp at hi
  | cons t rest ih =>
    intro s c hg hwin i hi
    have h := canMakeGlobalAIRequest_no_reset s t c w hg (hwin t (List.mem_cons_self _ _))
    have hwin1 : ∀ t ∈ rest, t - w ≤ 60000 := fun t ht => hwin t (List.mem_cons_of_mem _ ht)
    cases i with
    | zero => simp [globalRequests, h.1]
    | succ i =>
      have hi1 : i < rest.length := by simpa using hi
      by_cases hc : c < 30
      · have hg1 := h.2
        simp only [hc, if_true] at hg1
        have := ih _ (c + 1) hg1 hwin1 i hi1
        simp only [globalRequests, List.getElem?_cons_succ, this, Option.some.injEq,
          decide_eq_decide]
        omega
      · have hg1 := h.2
        simp only [hc, if_false] at hg1
        have := ih _ c hg1 hwin1 i hi1
        simp only [globalRequests, List.getElem?_cons_succ, this, Option.some.injEq,
          decide_eq_decide]
        omega

theorem canMakeGlobalAIRequest_fst_congr (s s1 : State) (t : Int)
    (h : s1.globalAIRateLimit = s.globalAIRateLimit) :
    (canMakeGlobalAIRequest s1 t).1 = (canMakeGlobalAIRequest s t).1 := by
  unfold canMakeGlobalAIRequest
  simp only [h]
  split_ifs <;> rfl

theorem canMakeAIRequest_fst_congr (s s1 : State) (u : String) (t : Int)
    (h : s1.aiRateLimit = s.aiRateLimit) :
    (canMakeAIRequest s1 u t).1 = (canMakeAIRequest s u t).1 := by
  unfold canMakeAIRequest
  simp only [h]
  split_ifs <;> rfl

/-- C3. Budget within one window of 60000 ms. Per user: from a state in which user `u`
has a fresh window starting at `t0` (a stored record with count 0 and window start
`t0`, or no record yet and `t0` the time of its first request), over every sequence of
requests, of any users, in which each request of `u` comes at a time `t` with
`t - t0 ≤ 60000` (so in particular `t0 ≤ t ≤ t0 + 60000`), a request of `u` is allowed
exactly when fewer than 5 requests of `u` precede it. Global: from count 0 and window
start `g0`, over every sequence of request times `t` with `t - g0 ≤ 60000`, the request
at position `i` (counted from 0) is allowed exactly when `i < 30`. -/
theorem budget_within_one_window (s : State) (u : String) (lr t0 g0 : Int)
    (reqs : List (String × Int)) (times : List Int)
    (hfresh : s.aiRateLimit.get u = some { count := 0, lastRequest := lr, lastReset := t0 } ∨
      (s.aiRateLimit.get u = none ∧
        ∀ p, reqs.find? (fun q => decide (q.1 = u)) = some p → p.2 = t0))
    (hglobal : s.globalAIRateLimit = { count := 0, lastReset := g0 })
    (hreqs : ∀ p ∈ reqs, p.1 = u → p.2 - t0 ≤ 60000)
    (htimes : ∀ t ∈ times, t - g0 ≤ 60000) :
    (∀ (i : Nat) (p : String × Int), reqs[i]? = some p → p.1 = u →
      (userRequests s reqs)[i]? =
        some (decide ((reqs.take i).countP (fun q => decide (q.1 = u)) < 5))) ∧
    (∀ (i : Nat), i < times.length →
      (globalRequests s times)[i]? = some (decide (i < 30))) := by
  constructor
  · intro i p hp hpu
    rcases hfresh with hstored | ⟨habsent, hfirst⟩
    · have := userRequests_no_reset u t0 reqs s 0 lr hstored hreqs i p hp hpu
      simpa using this
    · exact userRequests_first_window u t0 reqs s habsent hfirst hreqs i p hp hpu
  · intro i hi
    have := globalRequests_no_reset g0 times s 0 hglobal htimes i hi
    simpa using this

/-- Witness of C3 from the start-up state: seven requests of a new user `"u"` within
one window (the fifth allowed, the sixth denied) and thirty-one global requests (the
thirtieth allowed, the thirty-first denied). -/
theorem budget_within_one_window_witness :
    (userRequests (init 0)
      [("u", 0), ("u", 10), ("v", 20), ("u", 30), ("u", 40), ("u", 50), ("u", 60000),
       ("u", 60000)])[5]? = some true ∧
    (userRequests (init 0)
      [("u", 0), ("u", 10), ("v", 20), ("u", 30), ("u", 40), ("u", 50), ("u", 60000),
       ("u", 60000)])[6]? = some false ∧
    (globalRequests (init 0) (List.replicate 31 60000))[29]? = some true ∧
    (globalRequests (init 0) (List.replicate 31 60000))[30]? = some false :=
  have h := budget_within_one_window (init 0) "u" 0 0 0
    [("u", 0), ("u", 10), ("v", 20), ("u", 30), ("u", 40), ("u", 50), ("u", 60000),
     ("u", 60000)]
    (List.replicate 31 60000)
    (Or.inr ⟨by decide, fun p hp => by
      have hp1 : some (("u", 0) : String × Int) = some p := hp
      cases hp1
      rfl⟩)
    rfl (by decide) (by decide)
  ⟨(h.1 5 ("u", 50) (by decide) rfl).trans (by decide),
   (h.1 6 ("u", 60000) (by decide) rfl).trans (by decide),
   (h.2 29 (by decide)).trans (by decide),
   (h.2 30 (by decide)).trans (by decide)⟩

/-- C4, counterexample. A request issued exactly 60000 ms after the window start does
not roll the window over: from the start-up state at time 0, after five requests of
user `"u"` at time 0 the request at time 60000 is denied, and after thirty global
requests at time 0 the global request at time 60000 is denied. -/
theorem rollover_at_exact_window_length_denied :
    (60000 : Int) - 0 ≥ 60000 ∧
    userRequests (init 0)
      [("u", 0), ("u", 0), ("u", 0), ("u", 0), ("u", 0), ("u", 60000)]
      = [true, true, true, true, true, false] ∧
    globalRequests (init 0) (List.replicate 30 0 ++ [60000])
      = List.replicate 30 true ++ [false] := by
  decide

/-- C4, amended. For every limiter state, whatever the counts, a request at a time `t`
more than 60000 ms after the window start (`t - windowStart > 60000`) is allowed by
`canMakeAIRequest` and by `canMakeGlobalAIRequest`, and afterwards the window start is
`t` and the count is 1. At `t - windowStart = 60000` exactly there is no rollover: the
request is allowed exactly when the count is below the budget (5, resp. 30), and the
window start stays. -/
theorem rollover_after_window (s : State) (u : String) (c g : Nat) (lr w gw t : Int)
    (huser : s.aiRateLimit.get u = some { count := c, lastRequest := lr, lastReset := w })
    (hglobal : s.globalAIRateLimit = { count := g, lastReset := gw }) :
    (t - w > 60000 →
      (canMakeAIRequest s u t).1 = true ∧
      (canMakeAIRequest s u t).2.aiRateLimit.get u =
        some { count := 1, lastRequest := t, lastReset := t }) ∧
    (t - gw > 60000 →
      (canMakeGlobalAIRequest s t).1 = true ∧
      (canMakeGlobalAIRequest s t).2.globalAIRateLimit = { count := 1, lastReset := t }) ∧
    (t - w = 60000 →
      (canMakeAIRequest s u t).1 = decide (c < 5) ∧
      ((canMakeAIRequest s u t).2.aiRateLimit.get u).map UserLimit.lastReset = some w) ∧
    (t - gw = 60000 →
      (canMakeGlobalAIRequest s t).1 = decide (g < 30) ∧
      (canMakeGlobalAIRequest s t).2.globalAIRateLimit.lastReset = gw) := by
  refine ⟨fun h => canMakeAIRequest_reset s u t c lr w huser h,
    fun h => canMakeGlobalAIRequest_reset s t g gw hglobal h, fun h => ?_, fun h => ?_⟩
  · have h1 := canMakeAIRequest_no_reset s u t c lr w huser (by omega)
    refine ⟨h1.1, ?_⟩
    rw [h1.2]
    split_ifs <;> rfl
  · have h1 := canMakeGlobalAIRequest_no_reset s t g gw hglobal (by omega)
    refine ⟨h1.1, ?_⟩
    rw [h1.2]
    split_ifs <;> rfl

/-- Witness of C4 (amended): user `"u"` and the global limiter both exhausted in the
window starting at 0; at time 60001 both allow and start a new window. -/
theorem rollover_after_window_witness :
    (canMakeAIRequest
      { init 0 with
        aiRateLimit := [("u", { count := 5, lastRequest := 0, lastReset := 0 })],
        globalAIRateLimit := { count := 30, lastReset := 0 } } "u" 60001).1 = true ∧
    (canMakeGlobalAIRequest
      { init 0 with
        aiRateLimit := [("u", { count := 5, lastRequest := 0, lastReset := 0 })],
        globalAIRateLimit := { count := 30, lastReset := 0 } } 60001).1 = true :=
  have h := rollover_after_window
    { init 0 with
      aiRateLimit := [("u", { count := 5, lastRequest := 0, lastReset := 0 })],
      globalAIRateLimit := { count := 30, lastReset := 0 } } "u" 5 30 0 0 0 60001
    (by decide) rfl
  ⟨(h.1 (by decide)).1, (h.2.1 (by decide)).1⟩

/-- C5. For every state, user id and clock readings, `getAIResponse` calls the provider
if and only if both `canMakeAIRequest` (for that user) and `canMakeGlobalAIRequest`
allow the request in that state; if either denies, it resolves to the fixed denial
text and no provider call is made. -/
theorem getAIResponse_calls_provider_iff_both_allow (genAI : GenAI) (s : State)
    (question subject userId : String) (nowUser nowGlobal : Int) :
    ((getAIResponse genAI s question subject userId nowUser nowGlobal).calls ≠ [] ↔
      ((canMakeAIRequest s userId nowUser).1 = true ∧
       (canMakeGlobalAIRequest s nowGlobal).1 = true)) ∧
    (¬ ((canMakeAIRequest s userId nowUser).1 = true ∧
        (canMakeGlobalAIRequest s nowGlobal).1 = true) →
      (getAIResponse genAI s question subject userId nowUser nowGlobal).result
        = some rateLimitedText ∧
      (getAIResponse genAI s question subject userId nowUser nowGlobal).calls = []) := by
  have hg : (canMakeGlobalAIRequest (canMakeAIRequest s userId nowUser).2 nowGlobal).1
      = (canMakeGlobalAIRequest s nowGlobal).1 :=
    canMakeGlobalAIRequest_fst_congr s _ nowGlobal
      (canMakeAIRequest_globalAIRateLimit s userId nowUser)
  unfold getAIResponse
  simp only [hg]
  cases h1 : (canMakeAIRequest s userId nowUser).1
  · simp
  · cases h2 : (canMakeGlobalAIRequest s nowGlobal).1
    · simp
    · simp only [Bool.not_true, Bool.false_eq_true, if_false, and_self, not_true_eq_false,
        false_implies, and_true, iff_true]
      split
      · simp
      · split
        · simp
        · split
          · split <;> simp
          · simp

/-! ## Lemmas on the `message` handler -/

theorem canMakeAIRequest_frame (s : State) (u : String) (t : Int) :
    (canMakeAIRequest s u t).2.users = s.users ∧
    (canMakeAIRequest s u t).2.rooms = s.rooms ∧
    (canMakeAIRequest s u t).2.messages = s.messages := by
  unfold canMakeAIRequest
  simp only []
  split_ifs <;> simp

theorem canMakeGlobalAIRequest_frame (s : State) (t : Int) :
    (canMakeGlobalAIRequest s t).2.users = s.users ∧
    (canMakeGlobalAIRequest s t).2.rooms = s.rooms ∧
    (canMakeGlobalAIRequest s t).2.messages = s.messages := by
  unfold canMakeGlobalAIRequest
  simp only []
  split_ifs <;> simp

theorem getAIResponse_frame (genAI : GenAI) (s : State) (question subject userId : String)
    (nowUser nowGlobal : Int) :
    (getAIResponse genAI s question subject userId nowUser nowGlobal).state.users = s.users ∧
    (getAIResponse genAI s question subject userId nowUser nowGlobal).state.rooms = s.rooms ∧
    (getAIResponse genAI s question subject userId nowUser nowGlobal).state.messages
      = s.messages := by
  have h1 := canMakeAIRequest_frame s userId nowUser
  have h2 := canMakeGlobalAIRequest_frame (canMakeAIRequest s userId nowUser).2 nowGlobal
  have h3 : (canMakeGlobalAIRequest (canMakeAIRequest s userId nowUser).2 nowGlobal).2.users
      = s.users ∧
      (canMakeGlobalAIRequest (canMakeAIRequest s userId nowUser).2 nowGlobal).2.rooms
      = s.rooms ∧
      (canMakeGlobalAIRequest (canMakeAIRequest s userId nowUser).2 nowGlobal).2.messages
      = s.messages :=
    ⟨h2.1.trans h1.1, h2.2.1.trans h1.2.1, h2.2.2.trans h1.2.2⟩
  unfold getAIResponse
  simp only []
  split
  · exact h1
  · split
    · exact h3
    · split
      · exact h3
      · split
        · exact h3
        · split
          · split <;> exact h3
          · exact h3

theorem getAIResponse_denied (genAI : GenAI) (s : State) (question subject userId : String)
    (nowUser nowGlobal : Int)
    (hdeny : ¬ ((canMakeAIRequest s userId nowUser).1 = true ∧
                (canMakeGlobalAIRequest s nowGlobal).1 = true)) :
    (getAIResponse genAI s question subject userId nowUser nowGlobal).result
      = some rateLimitedText := by
  have hg : (canMakeGlobalAIRequest (canMakeAIRequest s userId nowUser).2 nowGlobal).1
      = (canMakeGlobalAIRequest s nowGlobal).1 :=
    canMakeGlobalAIRequest_fst_congr s _ nowGlobal
      (canMakeAIRequest_globalAIRateLimit s userId nowUser)
  unfold getAIResponse
  simp only [hg]
  cases h1 : (canMakeAIRequest s userId nowUser).1
  · simp
  · cases h2 : (canMakeGlobalAIRequest s nowGlobal).1
    · simp
    · exact absurd ⟨h1, h2⟩ hdeny

theorem history_pushMessage_self (s : State) (room : String) (msg : Message) :
    history (pushMessage s room msg) room = history s room ++ [msg] := by
  unfold pushMessage history JsMap.has
  cases h : s.messages.get room <;> simp [h, JsMap.get_set_self]

theorem history_pushMessage_of_ne (s : State) (room r1 : String) (msg : Message)
    (hne : room ≠ r1) : history (pushMessage s room msg) r1 = history s r1 := by
  unfold pushMessage history JsMap.has
  cases h : s.messages.get room <;> simp [h, JsMap.get_set_of_ne _ _ _ _ hne]

theorem messages_get_pushMessage_self (s : State) (room : String) (msg : Message) :
    (pushMessage s room msg).messages.get room = some (history s room ++ [msg]) := by
  unfold pushMessage history JsMap.has
  cases h : s.messages.get room <;> simp [h, JsMap.get_set_self]

theorem messageCount_addMessageCount_self (s : State) (room : String) (delta : Nat)
    (hroom : s.rooms.has room = true) :
    messageCount (addMessageCount s room delta) room = messageCount s room + delta := by
  unfold JsMap.has at hroom
  unfold addMessageCount messageCount
  cases h : s.rooms.get room with
  | none => simp [h] at hroom
  | some roomData => simp [JsMap.get_set_self]

theorem messageCount_addMessageCount_of_ne (s : State) (room r1 : String) (delta : Nat)
    (hne : room ≠ r1) :
    messageCount (addMessageCount s room delta) r1 = messageCount s r1 := by
  unfold addMessageCount messageCount
  cases h : s.rooms.get room with
  | none => simp
  | some roomData => simp [JsMap.get_set_of_ne _ _ _ _ hne]

theorem messageCount_le_addMessageCount (s : State) (room r1 : String) (delta : Nat) :
    messageCount s r1 ≤ messageCount (addMessageCount s room delta) r1 := by
  by_cases hne : room = r1
  · subst hne
    unfold addMessageCount messageCount
    cases h : s.rooms.get room with
    | none => simp [h]
    | some roomData => simp [JsMap.get_set_self]
  · rw [messageCount_addMessageCount_of_ne s room r1 delta hne]

theorem messageCount_congr (s s1 : State) (r : String) (h : s1.rooms = s.rooms) :
    messageCount s1 r = messageCount s r := by
  unfold messageCount
  rw [h]

theorem has_congr (s s1 : State) (r : String) (h : s1.rooms = s.rooms) :
    s1.rooms.has r = s.rooms.has r := by
  rw [h]

theorem history_congr (s s1 : State) (r : String) (h : s1.messages = s.messages) :
    history s1 r = history s r := by
  unfold history
  rw [h]

theorem addMessageCount_messages (s : State) (room : String) (delta : Nat) :
    (addMessageCount s room delta).messages = s.messages := by
  unfold addMessageCount
  cases h : s.rooms.get room <;> simp

theorem pushReply_rooms (s : State) (room : String) (msg : Message) :
    (pushReply s room msg).rooms = s.rooms := by
  unfold pushReply
  cases h : s.messages.get room <;> simp

theorem pushMessage_rooms (s : State) (room : String) (msg : Message) :
    (pushMessage s room msg).rooms = s.rooms := rfl

/-- Rooms of the state reached just before the final count update of an AI exchange. -/
theorem aiExchange_rooms_before_count (genAI : GenAI) (s : State) (userId question room : String)
    (msg reply : Message) (t1 t2 : Int) :
    (pushReply (getAIResponse genAI (pushMessage s room msg) question room userId t1 t2).state
      room reply).rooms = s.rooms := by
  rw [pushReply_rooms, (getAIResponse_frame genAI _ question room userId t1 t2).2.1]
  rfl

theorem messageCount_plainMessage (s : State) (user : User) (text : String)
    (fileUrl fileName : Option String) (clock : Clock) :
    (s.rooms.has user.room = true →
      messageCount (plainMessage s user text fileUrl fileName clock).1 user.room
        = messageCount s user.room + 1) ∧
    (∀ r, r ≠ user.room →
      messageCount (plainMessage s user text fileUrl fileName clock).1 r = messageCount s r) ∧
    (∀ r, messageCount s r ≤
      messageCount (plainMessage s user text fileUrl fileName clock).1 r) := by
  unfold plainMessage
  simp only []
  refine ⟨fun hroom => ?_, fun r hr => ?_, fun r => ?_⟩
  · rw [messageCount_addMessageCount_self _ _ _ (by rw [pushMessage_rooms]; exact hroom)]
    rfl
  · rw [messageCount_addMessageCount_of_ne _ _ _ _ (fun h => hr h.symm)]
    rfl
  · exact messageCount_le_addMessageCount (pushMessage s user.room _) _ _ _

theorem messageCount_aiExchange (genAI : GenAI) (s : State) (socketId : String) (user : User)
    (question : String) (clock : Clock) :
    (s.rooms.has user.room = true →
      messageCount (aiExchange genAI s socketId user question clock).1 user.room
        = messageCount s user.room + 2) ∧
    (∀ r, r ≠ user.room →
      messageCount (aiExchange genAI s socketId user question clock).1 r = messageCount s r) ∧
    (∀ r, messageCount s r ≤
      messageCount (aiExchange genAI s socketId user question clock).1 r) := by
  unfold aiExchange
  simp only []
  refine ⟨fun hroom => ?_, fun r hr => ?_, fun r => ?_⟩
  · rw [messageCount_addMessageCount_self _ _ _
      (by rw [aiExchange_rooms_before_count]; exact hroom)]
    rw [messageCount_congr s _ _ (aiExchange_rooms_before_count ..)]
  · rw [messageCount_addMessageCount_of_ne _ _ _ _ (fun h => hr h.symm)]
    rw [messageCount_congr s _ _ (aiExchange_rooms_before_count ..)]
  · refine le_trans (le_of_eq ?_) (messageCount_le_addMessageCount _ _ _ _)
    rw [messageCount_congr s _ _ (aiExchange_rooms_before_count ..)]

theorem history_pushReply_self (s : State) (room : String) (msg : Message)
    (past : List Message) (h : s.messages.get room = some past) :
    history (pushReply s room msg) room = past ++ [msg] := by
  unfold pushReply history
  simp [h, JsMap.get_set_self]

theorem history_pushReply_of_ne (s : State) (room r1 : String) (msg : Message)
    (hne : room ≠ r1) : history (pushReply s room msg) r1 = history s r1 := by
  unfold pushReply history
  cases h : s.messages.get room <;> simp [JsMap.get_set_of_ne _ _ _ _ hne]

theorem history_plainMessage (s : State) (user : User) (text : String)
    (fileUrl fileName : Option String) (clock : Clock) :
    history (plainMessage s user text fileUrl fileName clock).1 user.room
      = history s user.room ++ [plainMessageObject user text fileUrl fileName clock] := by
  unfold plainMessage
  simp only []
  rw [history_congr _ _ _ (addMessageCount_messages _ _ _), history_pushMessage_self]

theorem history_aiExchange (genAI : GenAI) (s : State) (socketId : String) (user : User)
    (question : String) (clock : Clock) :
    history (aiExchange genAI s socketId user question clock).1 user.room
      = history s user.room ++
        [questionMessage user question clock,
         replyMessage (replyText (getAIResponse genAI
           (pushMessage s user.room (questionMessage user question clock)) question user.room
           socketId clock.limiterNow clock.globalNow).result) clock] := by
  unfold aiExchange
  simp only []
  rw [history_congr _ _ _ (addMessageCount_messages _ _ _)]
  rw [history_pushReply_self _ _ _ (history s user.room ++ [questionMessage user question clock])]
  · simp
  · rw [(getAIResponse_frame genAI _ question user.room socketId _ _).2.2]
    exact messages_get_pushMessage_self s user.room _

theorem onMessage_ai (genAI : GenAI) (s : State) (socketId text question : String)
    (fileUrl fileName : Option String) (clock : Clock) (user : User)
    (huser : s.users.get socketId = some user)
    (hmatch : aiCommandRegex text = some question) (hblank : trim question ≠ "") :
    onMessage genAI s socketId text fileUrl fileName clock
      = aiExchange genAI s socketId user question clock := by
  unfold onMessage
  simp [huser, hmatch, hblank]

theorem onMessage_plain (genAI : GenAI) (s : State) (socketId text : String)
    (fileUrl fileName : Option String) (clock : Clock) (user : User)
    (huser : s.users.get socketId = some user)
    (hplain : ∀ q, aiCommandRegex text = some q → trim q = "") :
    onMessage genAI s socketId text fileUrl fileName clock
      = plainMessage s user text fileUrl fileName clock := by
  unfold onMessage
  cases h : aiCommandRegex text with
  | none => simp [huser]
  | some q => simp [huser, hplain q h]

theorem messageCount_le_onMessage (genAI : GenAI) (s : State) (socketId text : String)
    (fileUrl fileName : Option String) (clock : Clock) (r : String) :
    messageCount s r ≤
      messageCount (onMessage genAI s socketId text fileUrl fileName clock).1 r := by
  unfold onMessage
  cases huser : s.users.get socketId with
  | none => simp
  | some user =>
    cases h : aiCommandRegex text with
    | none => exact (messageCount_plainMessage s user text fileUrl fileName clock).2.2 r
    | some q =>
      by_cases hq : trim q = ""
      · simpa [hq] using (messageCount_plainMessage s user text fileUrl fileName clock).2.2 r
      · simpa [hq] using (messageCount_aiExchange genAI s socketId user q clock).2.2 r

theorem messageCount_onJoin (s : State) (c u room r : String) (t : Int) :
    messageCount (onJoin s c u room t).1 r = messageCount s r := by
  by_cases hu : u = ""
  · simp [onJoin, hu]
  by_cases hr : room = ""
  · simp [onJoin, hr]
  rw [onJoin_state s c u room t hu hr]
  cases h : s.rooms.get room with
  | none => simp [messageCount]
  | some roomData =>
    by_cases hne : room = r
    · subst hne
      simp [messageCount, JsMap.get_set_self, h]
    · simp [messageCount, JsMap.get_set_of_ne _ _ _ _ hne]

theorem messageCount_onDisconnect (s : State) (c r : String) (t : Int) :
    messageCount (onDisconnect s c t).1 r = messageCount s r := by
  unfold onDisconnect
  cases huser : s.users.get c with
  | none => simp
  | some user =>
    cases h : s.rooms.get user.room with
    | none => simp [messageCount, h]
    | some roomData =>
      by_cases hne : user.room = r
      · subst hne
        simp [messageCount, JsMap.get_set_self, h]
      · simp [messageCount, h, JsMap.get_set_of_ne _ _ _ _ hne]

theorem messageCount_le_step (s : State) (ev : Event) (r : String) :
    messageCount s r ≤ messageCount (step s ev).1 r := by
  cases ev with
  | join c u room t => exact le_of_eq (messageCount_onJoin s c u room r t).symm
  | message c text fileUrl fileName clock genAI =>
    exact messageCount_le_onMessage genAI s c text fileUrl fileName clock r
  | typing c isTyping =>
    simp only [step, onTyping]
    cases s.users.get c <;> simp
  | disconnect c t => exact le_of_eq (messageCount_onDisconnect s c r t).symm
  | adminStats c =>
    simp only [step, onAdminStats]
    cases h : s.users.get c with
    | none => simp
    | some user => cases hadmin : user.isAdmin <;> simp [hadmin]

theorem messageCount_le_run (events : List Event) :
    ∀ (s : State) (r : String), messageCount s r ≤ messageCount (run s events) r := by
  induction events with
  | nil => intro s r; exact le_refl _
  | cons ev rest ih =>
    intro s r
    exact le_trans (messageCount_le_step s ev r) (ih (step s ev).1 r)

/-- C6, counterexample. From the start-up state, connection `"c"` joins `"Math"` and
sends `"/ai why"` six times within one window, the provider always answering. The
sixth request is denied by the per-user limiter, and handling it raises the counter of
`"Math"` from 10 to 12: by 2, not by 1. -/
theorem rate_limited_ai_attempt_counts_two_at_sixth_request :
    (canMakeAIRequest
      (run (init 0)
        [Event.join "c" "alice" "Math" 0,
         Event.message "c" "/ai why" none none ⟨1, 1, 1, 1, 1, 1⟩ ⟨fun _ _ => Except.ok "x"⟩,
         Event.message "c" "/ai why" none none ⟨2, 2, 2, 2, 2, 2⟩ ⟨fun _ _ => Except.ok "x"⟩,
         Event.message "c" "/ai why" none none ⟨3, 3, 3, 3, 3, 3⟩ ⟨fun _ _ => Except.ok "x"⟩,
         Event.message "c" "/ai why" none none ⟨4, 4, 4, 4, 4, 4⟩ ⟨fun _ _ => Except.ok "x"⟩,
         Event.message "c" "/ai why" none none ⟨5, 5, 5, 5, 5, 5⟩ ⟨fun _ _ => Except.ok "x"⟩])
      "c" 6).1 = false ∧
    messageCount
      (run (init 0)
        [Event.join "c" "alice" "Math" 0,
         Event.message "c" "/ai why" none none ⟨1, 1, 1, 1, 1, 1⟩ ⟨fun _ _ => Except.ok "x"⟩,
         Event.message "c" "/ai why" none none ⟨2, 2, 2, 2, 2, 2⟩ ⟨fun _ _ => Except.ok "x"⟩,
         Event.message "c" "/ai why" none none ⟨3, 3, 3, 3, 3, 3⟩ ⟨fun _ _ => Except.ok "x"⟩,
         Event.message "c" "/ai why" none none ⟨4, 4, 4, 4, 4, 4⟩ ⟨fun _ _ => Except.ok "x"⟩,
         Event.message "c" "/ai why" none none ⟨5, 5, 5, 5, 5, 5⟩ ⟨fun _ _ => Except.ok "x"⟩])
      "Math" = 10 ∧
    messageCount
      (run (init 0)
        [Event.join "c" "alice" "Math" 0,
         Event.message "c" "/ai why" none none ⟨1, 1, 1, 1, 1, 1⟩ ⟨fun _ _ => Except.ok "x"⟩,
         Event.message "c" "/ai why" none none ⟨2, 2, 2, 2, 2, 2⟩ ⟨fun _ _ => Except.ok "x"⟩,
         Event.message "c" "/ai why" none none ⟨3, 3, 3, 3, 3, 3⟩ ⟨fun _ _ => Except.ok "x"⟩,
         Event.message "c" "/ai why" none none ⟨4, 4, 4, 4, 4, 4⟩ ⟨fun _ _ => Except.ok "x"⟩,
         Event.message "c" "/ai why" none none ⟨5, 5, 5, 5, 5, 5⟩ ⟨fun _ _ => Except.ok "x"⟩,
         Event.message "c" "/ai why" none none ⟨6, 6, 6, 6, 6, 6⟩ ⟨fun _ _ => Except.ok "x"⟩])
      "Math" = 12 := by
  decide

/-- C6, amended. For every state in which the sender is joined to a room of `rooms` and
a limiter denies the request, handling one message that is an AI command (the pattern
matches with a non-blank question) increases the counter of that room by exactly 2: the
denial text is appended to the history as an AI message after the question, and both
are counted. -/
theorem rate_limited_ai_attempt_counts_two (genAI : GenAI) (s : State)
    (socketId text question : String) (fileUrl fileName : Option String) (clock : Clock)
    (user : User) (huser : s.users.get socketId = some user)
    (hroom : s.rooms.has user.room = true)
    (hmatch : aiCommandRegex text = some question) (hblank : trim question ≠ "")
    (hdeny : ¬ ((canMakeAIRequest s socketId clock.limiterNow).1 = true ∧
                (canMakeGlobalAIRequest s clock.globalNow).1 = true)) :
    messageCount (onMessage genAI s socketId text fileUrl fileName clock).1 user.room
      = messageCount s user.room + 2 ∧
    history (onMessage genAI s socketId text fileUrl fileName clock).1 user.room
      = history s user.room ++
        [questionMessage user question clock, replyMessage rateLimitedText clock] := by
  rw [onMessage_ai genAI s socketId text question fileUrl fileName clock user huser hmatch hblank]
  refine ⟨(messageCount_aiExchange genAI s socketId user question clock).1 hroom, ?_⟩
  rw [history_aiExchange]
  have hdeny1 : ¬ ((canMakeAIRequest
        (pushMessage s user.room (questionMessage user question clock)) socketId
        clock.limiterNow).1 = true ∧
      (canMakeGlobalAIRequest
        (pushMessage s user.room (questionMessage user question clock))
        clock.globalNow).1 = true) := by
    rw [canMakeAIRequest_fst_congr s
        (pushMessage s user.room (questionMessage user question clock)) socketId
        clock.limiterNow rfl,
      canMakeGlobalAIRequest_fst_congr s
        (pushMessage s user.room (questionMessage user question clock)) clock.globalNow rfl]
    exact hdeny
  rw [getAIResponse_denied genAI _ question user.room socketId _ _ hdeny1]
  rfl

/-- Witness of C6 (amended): `"c"` is joined to `"Math"` and its per-user budget is
used up in the current window; the attempt `"/ai why"` adds 2 to the counter. -/
theorem rate_limited_ai_attempt_counts_two_witness :
    messageCount (onMessage ⟨fun _ _ => Except.ok "x"⟩
      { (onJoin (init 0) "c" "alice" "Math" 0).1 with
        aiRateLimit := [("c", { count := 5, lastRequest := 5, lastReset := 1 })] }
      "c" "/ai why" none none ⟨6, 6, 6, 6, 6, 6⟩).1 "Math"
    = messageCount
      { (onJoin (init 0) "c" "alice" "Math" 0).1 with
        aiRateLimit := [("c", { count := 5, lastRequest := 5, lastReset := 1 })] } "Math" + 2 :=
  (rate_limited_ai_attempt_counts_two ⟨fun _ _ => Except.ok "x"⟩
    { (onJoin (init 0) "c" "alice" "Math" 0).1 with
      aiRateLimit := [("c", { count := 5, lastRequest := 5, lastReset := 1 })] }
    "c" "/ai why" "why" none none ⟨6, 6, 6, 6, 6, 6⟩
    { username := "alice", room := "Math", isAdmin := false }
    (by decide) (by decide) (by decide) (by decide) (by decide)).1

/-- C7. For every state in which the sender is joined to a room `R` of `rooms`:
handling one plain message (the pattern does not match, or the captured question is
blank) increases the counter of `R` by exactly 1; handling one AI command that both
limiters allow increases it by exactly 2; in either case the counter of every other
room is unchanged. Consequently no counter ever decreases, over any sequence of events
from any state. -/
theorem message_count_increments (genAI : GenAI) (s : State) (socketId text : String)
    (fileUrl fileName : Option String) (clock : Clock) (user : User)
    (huser : s.users.get socketId = some user) (hroom : s.rooms.has user.room = true) :
    ((∀ q, aiCommandRegex text = some q → trim q = "") →
      messageCount (onMessage genAI s socketId text fileUrl fileName clock).1 user.room
        = messageCount s user.room + 1) ∧
    (∀ q, aiCommandRegex text = some q → trim q ≠ "" →
      (canMakeAIRequest s socketId clock.limiterNow).1 = true →
      (canMakeGlobalAIRequest s clock.globalNow).1 = true →
      messageCount (onMessage genAI s socketId text fileUrl fileName clock).1 user.room
        = messageCount s user.room + 2) ∧
    (∀ r, r ≠ user.room →
      messageCount (onMessage genAI s socketId text fileUrl fileName clock).1 r
        = messageCount s r) ∧
    (∀ (s0 : State) (events : List Event) (r : String),
      messageCount s0 r ≤ messageCount (run s0 events) r) := by
  refine ⟨fun hplain => ?_, fun q hq hblank _ _ => ?_, fun r hr => ?_,
    fun s0 events r => messageCount_le_run events s0 r⟩
  · rw [onMessage_plain genAI s socketId text fileUrl fileName clock user huser hplain]
    exact (messageCount_plainMessage s user text fileUrl fileName clock).1 hroom
  · rw [onMessage_ai genAI s socketId text q fileUrl fileName clock user huser hq hblank]
    exact (messageCount_aiExchange genAI s socketId user q clock).1 hroom
  · cases h : aiCommandRegex text with
    | none =>
      rw [onMessage_plain genAI s socketId text fileUrl fileName clock user huser
        (fun q hq => by rw [h] at hq; cases hq)]
      exact (messageCount_plainMessage s user text fileUrl fileName clock).2.1 r hr
    | some q =>
      by_cases hq : trim q = ""
      · rw [onMessage_plain genAI s socketId text fileUrl fileName clock user huser
          (fun q1 hq1 => by rw [h] at hq1; cases hq1; exact hq)]
        exact (messageCount_plainMessage s user text fileUrl fileName clock).2.1 r hr
      · rw [onMessage_ai genAI s socketId text q fileUrl fileName clock user huser h hq]
        exact (messageCount_aiExchange genAI s socketId user q clock).2.1 r hr

/-- Witness of C7: after `"c"` has joined `"Math"`, the plain message `"hello"` adds 1
to the counter of `"Math"` and leaves the counter of `"Science"` as it is. -/
theorem message_count_increments_witness :
    messageCount (onMessage ⟨fun _ _ => Except.ok "x"⟩ (onJoin (init 0) "c" "alice" "Math" 0).1
      "c" "hello" none none ⟨6, 6, 6, 6, 6, 6⟩).1 "Math"
      = messageCount (onJoin (init 0) "c" "alice" "Math" 0).1 "Math" + 1 ∧
    messageCount (onMessage ⟨fun _ _ => Except.ok "x"⟩ (onJoin (init 0) "c" "alice" "Math" 0).1
      "c" "hello" none none ⟨6, 6, 6, 6, 6, 6⟩).1 "Science"
      = messageCount (onJoin (init 0) "c" "alice" "Math" 0).1 "Science" :=
  have h := message_count_increments ⟨fun _ _ => Except.ok "x"⟩
    (onJoin (init 0) "c" "alice" "Math" 0).1 "c" "hello" none none ⟨6, 6, 6, 6, 6, 6⟩
    { username := "alice", room := "Math", isAdmin := false } (by decide) (by decide)
  ⟨h.1 (fun q hq => by
      have hq1 : (none : Option String) = some q := hq
      cases hq1),
   h.2.2.1 "Science" (by decide)⟩

/-- C8 (code defect). Message ids are clock readings (`Date.now()`, and
`Date.now() + 1` for an answer), so they collide. From the start-up state, with
`"c"` joined to `"Math"`: two plain messages handled at the same reading 5 both get
id 5; and the answer of an AI exchange built at reading 7 gets id 8, as does the plain
message handled next at reading 8. The clock readings are non-decreasing. -/
theorem message_ids_collide :
    (history (run (init 0)
      [Event.join "c" "alice" "Math" 0,
       Event.message "c" "first" none none ⟨5, 5, 5, 5, 5, 5⟩ ⟨fun _ _ => Except.ok "x"⟩,
       Event.message "c" "second" none none ⟨5, 5, 5, 5, 5, 5⟩ ⟨fun _ _ => Except.ok "x"⟩])
      "Math").map (fun m => (m.id, m.text)) = [(5, "first"), (5, "second")] ∧
    (history (run (init 0)
      [Event.join "c" "alice" "Math" 0,
       Event.message "c" "/ai why" none none ⟨5, 5, 5, 5, 7, 7⟩ ⟨fun _ _ => Except.ok "x"⟩,
       Event.message "c" "thanks" none none ⟨8, 8, 8, 8, 8, 8⟩ ⟨fun _ _ => Except.ok "x"⟩])
      "Math").map (fun m => (m.id, m.isAI)) = [(5, false), (8, true), (8, false)] := by
  decide

/-! ## Rooms of the reachable states -/

theorem addMessageCount_rooms_keys (s : State) (room : String) (delta : Nat) :
    (addMessageCount s room delta).rooms.map Prod.fst = s.rooms.map Prod.fst := by
  unfold addMessageCount
  cases h : s.rooms.get room with
  | none => simp
  | some roomData => simp [JsMap.keys_set_of_get _ _ _ _ h]

theorem step_rooms_keys (s : State) (ev : Event) :
    (step s ev).1.rooms.map Prod.fst = s.rooms.map Prod.fst := by
  cases ev with
  | join c u room t =>
    simp only [step]
    by_cases hu : u = ""
    · simp [onJoin, hu]
    by_cases hr : room = ""
    · simp [onJoin, hr]
    rw [onJoin_state s c u room t hu hr]
    cases h : s.rooms.get room with
    | none => simp
    | some roomData => simp [JsMap.keys_set_of_get _ _ _ _ h]
  | message c text fileUrl fileName clock genAI =>
    simp only [step, onMessage]
    cases huser : s.users.get c with
    | none => simp
    | some user =>
      have hplain : (plainMessage s user text fileUrl fileName clock).1.rooms.map Prod.fst
          = s.rooms.map Prod.fst := by
        unfold plainMessage
        simp only []
        rw [addMessageCount_rooms_keys]
        rfl
      cases h : aiCommandRegex text with
      | none => exact hplain
      | some q =>
        by_cases hq : trim q = ""
        · simpa [hq] using hplain
        · simp only [hq, if_false]
          unfold aiExchange
          simp only []
          rw [addMessageCount_rooms_keys, aiExchange_rooms_before_count]
  | typing c isTyping =>
    simp only [step, onTyping]
    cases s.users.get c <;> simp
  | disconnect c t =>
    simp only [step, onDisconnect]
    cases huser : s.users.get c with
    | none => simp
    | some user =>
      cases h : s.rooms.get user.room with
      | none => simp [h]
      | some roomData => simp [h, JsMap.keys_set_of_get _ _ _ _ h]
  | adminStats c =>
    simp only [step, onAdminStats]
    cases h : s.users.get c with
    | none => simp
    | some user => cases hadmin : user.isAdmin <;> simp [hadmin]

theorem run_rooms_keys (events : List Event) :
    ∀ (s : State), (run s events).rooms.map Prod.fst = s.rooms.map Prod.fst := by
  induction events with
  | nil => intro s; rfl
  | cons ev rest ih =>
    intro s
    exact (ih (step s ev).1).trans (step_rooms_keys s ev)

/-- In every state reached from start-up, `rooms` holds exactly the catalog ids. -/
theorem reachable_rooms_has (t0 : Int) (events : List Event) (room : String) :
    (run (init t0) events).rooms.has room = true ↔ room ∈ catalogIds := by
  unfold JsMap.has
  rw [JsMap.get_isSome_iff_mem_keys, run_rooms_keys]
  rfl

/-- C9, counterexample. From the start-up state, the join of `"c"` as `"bob"` to the
room id `"Lounge"`, which is not in the catalog, is not rejected: no `error` event is
emitted, the registry gets a session bound to `"Lounge"`, and the plain message the
connection sends next is not dropped but stored in a history created for `"Lounge"`. -/
theorem join_unknown_room_creates_session :
    "Lounge" ∉ catalogIds ∧
    (onJoin (init 0) "c" "bob" "Lounge" 1).2 =
      [Emit.toSocket "c" (Payload.roomHistory []),
       Emit.toRoomExcept "Lounge" "c"
         (Payload.userJoined "bob" "bob joined the study room" 1)] ∧
    (onJoin (init 0) "c" "bob" "Lounge" 1).1.users.get "c"
      = some { username := "bob", room := "Lounge", isAdmin := false } ∧
    history (run (init 0)
      [Event.join "c" "bob" "Lounge" 1,
       Event.message "c" "hello" none none ⟨2, 2, 2, 2, 2, 2⟩ ⟨fun _ _ => Except.ok "x"⟩])
      "Lounge"
      = [{ id := 2, username := "bob", text := "hello", fileUrl := none, fileName := none,
           timestamp := 2, isAI := false }] := by
  decide

/-- C9, amended. In every state reached from start-up, a join with a non-empty
username and a non-empty room id outside the catalog is accepted: the registry gets
the session `{ username, room, isAdmin }` for the connection, nothing else changes
(every member set and counter, the histories and the limiters are as before), the
sender gets the (empty or existing) history of that id and no `error` event, and a
plain message the connection sends next is appended to the history of that room id. -/
theorem join_unknown_room_is_accepted (t0 : Int) (events : List Event)
    (socketId username room text : String) (stamp : Int) (genAI : GenAI)
    (fileUrl fileName : Option String) (clock : Clock)
    (hu : username ≠ "") (hr : room ≠ "") (hcat : room ∉ catalogIds)
    (hplain : ∀ q, aiCommandRegex text = some q → trim q = "") :
    (onJoin (run (init t0) events) socketId username room stamp).1 =
      { run (init t0) events with
        users := (run (init t0) events).users.set socketId
          { username := username, room := room, isAdmin := decide (username ∈ adminUsers) } } ∧
    (onJoin (run (init t0) events) socketId username room stamp).2 =
      [Emit.toSocket socketId (Payload.roomHistory (history (run (init t0) events) room)),
       Emit.toRoomExcept room socketId
         (Payload.userJoined username (username ++ " joined the study room") stamp)] ∧
    history (onMessage genAI (onJoin (run (init t0) events) socketId username room stamp).1
        socketId text fileUrl fileName clock).1 room =
      history (run (init t0) events) room ++
        [{ id := clock.idNow, username := username, text := text, fileUrl := fileUrl,
           fileName := fileName, timestamp := clock.stamp, isAI := false }] := by
  have hnone : (run (init t0) events).rooms.get room = none := by
    have h := (reachable_rooms_has t0 events room).not.mpr hcat
    unfold JsMap.has at h
    cases hget : (run (init t0) events).rooms.get room with
    | none => rfl
    | some roomData => simp [hget] at h
  have hstate := onJoin_state (run (init t0) events) socketId username room stamp hu hr
  rw [hnone] at hstate
  simp only [] at hstate
  refine ⟨hstate, ?_, ?_⟩
  · unfold onJoin
    simp [hu, hr, hnone, updateRoomUsers, history]
  · rw [onMessage_plain genAI _ socketId text fileUrl fileName clock
      { username := username, room := room, isAdmin := decide (username ∈ adminUsers) }
      (onJoin_users_get_self _ socketId username room stamp hu hr) hplain]
    rw [history_plainMessage, hstate]
    rfl

/-- Witness of C9 (amended) on the start-up state, with `"bob"` joining `"Lounge"`. -/
theorem join_unknown_room_is_accepted_witness :
    (onJoin (run (init 0) []) "c" "bob" "Lounge" 1).1 =
      { run (init 0) [] with
        users := (run (init 0) []).users.set "c"
          { username := "bob", room := "Lounge", isAdmin := decide ("bob" ∈ adminUsers) } } :=
  (join_unknown_room_is_accepted 0 [] "c" "bob" "Lounge" "hello" 1
    ⟨fun _ _ => Except.ok "x"⟩ none none ⟨2, 2, 2, 2, 2, 2⟩
    (by decide) (by decide) (by decide)
    (fun q hq => by
      have hq1 : (none : Option String) = some q := hq
      cases hq1)).1

/-! ## The AI command pattern: what it accepts -/

theorem isWhiteSpace_of_isLineTerminator (c : Char) (h : isLineTerminator c = true) :
    isWhiteSpace c = true := by
  simp only [isLineTerminator, Bool.or_eq_true, decide_eq_true_eq] at h
  simp only [isWhiteSpace, Bool.or_eq_true, decide_eq_true_eq, Bool.and_eq_true]
  rcases h with ((h | h) | h) | h <;> simp [h]

theorem string_mk_eq_empty_iff (l : List Char) : String.mk l = "" ↔ l = [] := by
  constructor
  · intro h
    have := congrArg String.data h
    simpa using this
  · intro h
    subst h
    rfl

theorem trimChars_eq_nil_iff (l : List Char) :
    trimChars l = [] ↔ ∀ c ∈ l, isWhiteSpace c = true := by
  unfold trimChars
  rw [List.reverse_eq_nil_iff, List.dropWhile_eq_nil_iff]
  constructor
  · intro h
    by_cases hd : l.dropWhile isWhiteSpace = []
    · exact List.dropWhile_eq_nil_iff.mp hd
    · have h1 := List.head_dropWhile_not isWhiteSpace l hd
      have h2 := h ((l.dropWhile isWhiteSpace).head hd)
        (List.mem_reverse.mpr (List.head_mem hd))
      rw [h1] at h2
      cases h2
  · intro h x hx
    exact h x ((List.dropWhile_sublist isWhiteSpace).subset (List.mem_reverse.mp hx))

theorem trim_eq_empty_iff (q : List Char) :
    trim (String.mk q) = "" ↔ ∀ c ∈ q, isWhiteSpace c = true := by
  unfold trim
  rw [string_mk_eq_empty_iff]
  exact trimChars_eq_nil_iff q

theorem matchGroup_subset (cs q : List Char) (h : matchGroup cs = some q) :
    ∀ x ∈ q, x ∈ cs := by
  unfold matchGroup at h
  simp only [] at h
  split_ifs at h
  cases h
  intro x hx
  exact (List.takeWhile_sublist _).subset hx

theorem matchSpacesGroup_subset :
    ∀ (cs q : List Char), matchSpacesGroup cs = some q → ∀ x ∈ q, x ∈ cs := by
  intro cs
  induction cs with
  | nil => intro q h; simp [matchSpacesGroup] at h
  | cons c cs ih =>
    intro q h x hx
    unfold matchSpacesGroup at h
    by_cases hc : isWhiteSpace c = true
    · simp only [hc, if_true] at h
      cases hrec : matchSpacesGroup cs with
      | none =>
        rw [hrec] at h
        exact matchGroup_subset _ _ h x hx
      | some q1 =>
        rw [hrec] at h
        simp only [Option.some.injEq] at h
        subst h
        exact List.mem_cons_of_mem _ (ih q1 hrec x hx)
    · simp only [hc, if_false] at h
      exact matchGroup_subset _ _ h x hx

theorem matchGroup_of_not_whiteSpace (c : Char) (rest : List Char)
    (hc : isWhiteSpace c = false) :
    matchGroup (c :: rest) =
      some (c :: rest.takeWhile (fun x => !isLineTerminator x)) := by
  have hlt : isLineTerminator c = false := by
    cases h : isLineTerminator c with
    | false => rfl
    | true => rw [isWhiteSpace_of_isLineTerminator c h] at hc; cases hc
  simp [matchGroup, List.takeWhile_cons, hlt]

theorem matchSpacesGroup_spaces_then_char (c : Char) (rest : List Char)
    (hc : isWhiteSpace c = false) :
    ∀ (ws : List Char), (∀ w ∈ ws, isWhiteSpace w = true) →
      matchSpacesGroup (ws ++ c :: rest) =
        some (c :: rest.takeWhile (fun x => !isLineTerminator x)) := by
  intro ws
  induction ws with
  | nil =>
    intro _
    simp only [List.nil_append]
    unfold matchSpacesGroup
    simp only [hc, Bool.false_eq_true, if_false]
    exact matchGroup_of_not_whiteSpace c rest hc
  | cons w ws ih =>
    intro hws
    have hw : isWhiteSpace w = true := hws w (List.mem_cons_self _ _)
    have hrec := ih (fun x hx => hws x (List.mem_cons_of_mem _ hx))
    simp only [List.cons_append]
    unfold matchSpacesGroup
    simp only [hw, if_true, hrec]

/-- The texts routed to the AI exchange are exactly the texts of the shape
`IsAiCommandText`. -/
theorem aiCommand_iff (text : String) :
    (∃ q, aiCommandRegex text = some q ∧ trim q ≠ "") ↔ IsAiCommandText text := by
  constructor
  · rintro ⟨q, hq, hblank⟩
    unfold aiCommandRegex at hq
    rcases hl : text.toList with _ | ⟨c0, _ | ⟨c1, _ | ⟨c2, _ | ⟨c3, rest⟩⟩⟩⟩
    · rw [hl] at hq; cases hq
    · rw [hl] at hq; cases hq
    · rw [hl] at hq; cases hq
    · rw [hl] at hq; cases hq
    · rw [hl] at hq
      simp only [] at hq
      split_ifs at hq with hcond
      simp only [Bool.and_eq_true, Bool.or_eq_true, decide_eq_true_eq] at hcond
      obtain ⟨⟨⟨h0, h1⟩, h2⟩, h3⟩ := hcond
      subst h0
      cases hm : matchSpacesGroup rest with
      | none => simp [hm] at hq
      | some q1 =>
        simp only [hm, Option.map_some', Option.some.injEq] at hq
        subst hq
        have hnot : ¬ ∀ x ∈ rest, isWhiteSpace x = true := by
          intro hall
          apply hblank
          rw [trim_eq_empty_iff]
          exact fun x hx => hall x (matchSpacesGroup_subset rest q1 hm x hx)
        have hd : rest.dropWhile isWhiteSpace ≠ [] :=
          fun h => hnot (List.dropWhile_eq_nil_iff.mp h)
        obtain ⟨c, tl, htl⟩ := List.exists_cons_of_ne_nil hd
        have hc : isWhiteSpace c = false := by
          have := List.head_dropWhile_not isWhiteSpace rest hd
          simpa [htl] using this
        refine ⟨c1, c2, c3 :: rest.takeWhile isWhiteSpace, c, tl, ?_, h1, h2, by simp, ?_, hc⟩
        · rw [List.cons_append, ← htl, List.takeWhile_append_dropWhile]
          exact hl
        · intro w hw
          rcases List.mem_cons.mp hw with hw1 | hw1
          · rw [hw1]; exact h3
          · exact List.mem_takeWhile_imp hw1
  · rintro ⟨c1, c2, ws, c, rest, hl, h1, h2, hne, hws, hc⟩
    obtain ⟨c3, ws1, rfl⟩ := List.exists_cons_of_ne_nil hne
    have h3 : isWhiteSpace c3 = true := hws c3 (List.mem_cons_self _ _)
    have hm := matchSpacesGroup_spaces_then_char c rest hc ws1
      (fun x hx => hws x (List.mem_cons_of_mem _ hx))
    refine ⟨String.mk (c :: rest.takeWhile (fun x => !isLineTerminator x)), ?_, ?_⟩
    · unfold aiCommandRegex
      rw [hl]
      simp only [List.cons_append, hm, Option.map_some']
      rcases h1 with rfl | rfl <;> rcases h2 with rfl | rfl <;> simp [h3]
    · rw [Ne, trim_eq_empty_iff]
      intro hall
      have := hall c (List.mem_cons_self _ _)
      rw [hc] at this
      cases this

/-- C10, counterexample. The text `"/AI hi"` does not begin with the characters `/ai`,
so the pattern `^/ai\s+(.+)` as written does not match it; yet the handler matches
it (the flag `i` ignores case), captures `"hi"` and runs the AI exchange: from the
start-up state with `"c"` joined to `"Math"`, the history gets the question message and
the AI answer, not a plain message with the text `"/AI hi"`. -/
theorem uppercase_ai_command_opens_ai_exchange :
    "/AI hi".toList.take 3 ≠ "/ai".toList ∧
    aiCommandRegex "/AI hi" = some "hi" ∧
    (history (run (init 0)
      [Event.join "c" "alice" "Math" 0,
       Event.message "c" "/AI hi" none none ⟨5, 5, 5, 5, 5, 5⟩ ⟨fun _ _ => Except.ok "x"⟩])
      "Math").map (fun m => (m.text, m.isAI))
      = [("🤖 Asked AI: hi", false),
         ("🤖 AI Assistant: x\n\n*Generated for Math question: \"hi\"*", true)] := by
  decide

/-- C10, amended. For every message text from a joined connection, the message is
handled by the AI exchange exactly when the text matches `^/ai\s+(.+)` without regard
to the case of `a` and `i` and with a non-blank capture, that is when it has the shape
`IsAiCommandText`: the history of the sender's room then gets a question message and
an AI message. In every other case (as `"/ai   "` or `"hello /ai test"`) it is handled
as a plain message: the history gets one message whose text is the input text. -/
theorem ai_command_routing (genAI : GenAI) (s : State) (socketId text : String)
    (fileUrl fileName : Option String) (clock : Clock) (user : User)
    (huser : s.users.get socketId = some user) :
    (IsAiCommandText text →
      ∃ question reply,
        aiCommandRegex text = some question ∧
        onMessage genAI s socketId text fileUrl fileName clock
          = aiExchange genAI s socketId user question clock ∧
        history (onMessage genAI s socketId text fileUrl fileName clock).1 user.room
          = history s user.room ++
            [questionMessage user question clock, replyMessage reply clock]) ∧
    (¬ IsAiCommandText text →
      onMessage genAI s socketId text fileUrl fileName clock
        = plainMessage s user text fileUrl fileName clock ∧
      history (onMessage genAI s socketId text fileUrl fileName clock).1 user.room
        = history s user.room ++
          [{ id := clock.idNow, username := user.username, text := text, fileUrl := fileUrl,
             fileName := fileName, timestamp := clock.stamp, isAI := false }]) := by
  constructor
  · intro hshape
    obtain ⟨q, hq, hblank⟩ := (aiCommand_iff text).mpr hshape
    have hroute := onMessage_ai genAI s socketId text q fileUrl fileName clock user huser
      hq hblank
    refine ⟨q, replyText (getAIResponse genAI
      (pushMessage s user.room (questionMessage user q clock)) q user.room
      socketId clock.limiterNow clock.globalNow).result, hq, hroute, ?_⟩
    rw [hroute]
    exact history_aiExchange genAI s socketId user q clock
  · intro hshape
    have hplain : ∀ q, aiCommandRegex text = some q → trim q = "" := by
      intro q hq
      by_contra hblank
      exact hshape ((aiCommand_iff text).mp ⟨q, hq, hblank⟩)
    have hroute := onMessage_plain genAI s socketId text fileUrl fileName clock user huser
      hplain
    refine ⟨hroute, ?_⟩
    rw [hroute]
    exact history_plainMessage s user text fileUrl fileName clock

/-- Witness of C10 (amended): with `"c"` joined to `"Math"`, the text
`"hello /ai test"` is stored as it is, as one plain message. -/
theorem ai_command_routing_witness :
    history (onMessage ⟨fun _ _ => Except.ok "x"⟩ (onJoin (init 0) "c" "alice" "Math" 0).1
      "c" "hello /ai test" none none ⟨5, 5, 5, 5, 5, 5⟩).1 "Math"
    = history (onJoin (init 0) "c" "alice" "Math" 0).1 "Math" ++
      [{ id := 5, username := "alice", text := "hello /ai test", fileUrl := none,
         fileName := none, timestamp := 5, isAI := false }] :=
  ((ai_command_routing ⟨fun _ _ => Except.ok "x"⟩ (onJoin (init 0) "c" "alice" "Math" 0).1
    "c" "hello /ai test" none none ⟨5, 5, 5, 5, 5, 5⟩
    { username := "alice", room := "Math", isAdmin := false } (by decide)).2
    (fun hshape => by
      obtain ⟨q, hq, _⟩ := (aiCommand_iff "hello /ai test").mpr hshape
      have hq1 : (none : Option String) = some q := hq
      cases hq1)).2

/-! ## The question of an AI command -/

/-- The group captured from a text of the shape of an AI command: from the first
character after the white-space run up to the first line terminator. -/
theorem aiCommandRegex_capture (text : String) (c1 c2 : Char) (ws : List Char) (c : Char)
    (rest : List Char) (hshape : text.toList = '/' :: c1 :: c2 :: (ws ++ c :: rest))
    (h1 : c1 = 'a' ∨ c1 = 'A') (h2 : c2 = 'i' ∨ c2 = 'I') (hne : ws ≠ [])
    (hws : ∀ w ∈ ws, isWhiteSpace w = true) (hc : isWhiteSpace c = false) :
    aiCommandRegex text
      = some (String.mk (c :: rest.takeWhile (fun x => !isLineTerminator x))) ∧
    trim (String.mk (c :: rest.takeWhile (fun x => !isLineTerminator x))) ≠ "" := by
  obtain ⟨c3, ws1, rfl⟩ := List.exists_cons_of_ne_nil hne
  have h3 : isWhiteSpace c3 = true := hws c3 (List.mem_cons_self _ _)
  have hm := matchSpacesGroup_spaces_then_char c rest hc ws1
    (fun x hx => hws x (List.mem_cons_of_mem _ hx))
  constructor
  · unfold aiCommandRegex
    rw [hshape]
    simp only [List.cons_append, hm, Option.map_some']
    rcases h1 with rfl | rfl <;> rcases h2 with rfl | rfl <;> simp [h3]
  · rw [Ne, trim_eq_empty_iff]
    intro hall
    have := hall c (List.mem_cons_self _ _)
    rw [hc] at this
    cases this

/-- C11, counterexample. For the text `"/ai what is 2+2  "` the captured group is
`"what is 2+2  "`, with its two trailing blanks, and this group, not its trimmed form
`"what is 2+2"`, is shown in the stored question message and handed to
`getAIResponse` (it comes back in the note that closes the answer). -/
theorem trailing_blanks_stay_in_question :
    aiCommandRegex "/ai what is 2+2  " = some "what is 2+2  " ∧
    trim "what is 2+2  " = "what is 2+2" ∧
    (history (run (init 0)
      [Event.join "c" "alice" "Math" 0,
       Event.message "c" "/ai what is 2+2  " none none ⟨5, 5, 5, 5, 5, 5⟩
         ⟨fun _ _ => Except.ok "4"⟩])
      "Math").map (fun m => m.text)
      = ["🤖 Asked AI: what is 2+2  ",
         "🤖 AI Assistant: 4\n\n*Generated for Math question: \"what is 2+2  \"*"] := by
  decide

/-- C11, amended. For every message text that is handled as an AI command, the
question shown in the stored question message and passed to `getAIResponse` is the
captured group as it is, not trimmed: it starts at the first character after the white
space that follows `/ai` (so it has no leading white space) and runs up to the first
line terminator or the end of the text, trailing white space included. -/
theorem ai_question_is_capture (genAI : GenAI) (s : State) (socketId text : String)
    (fileUrl fileName : Option String) (clock : Clock) (user : User)
    (c1 c2 : Char) (ws : List Char) (c : Char) (rest : List Char)
    (huser : s.users.get socketId = some user)
    (hshape : text.toList = '/' :: c1 :: c2 :: (ws ++ c :: rest))
    (h1 : c1 = 'a' ∨ c1 = 'A') (h2 : c2 = 'i' ∨ c2 = 'I') (hne : ws ≠ [])
    (hws : ∀ w ∈ ws, isWhiteSpace w = true) (hc : isWhiteSpace c = false) :
    onMessage genAI s socketId text fileUrl fileName clock
      = aiExchange genAI s socketId user
          (String.mk (c :: rest.takeWhile (fun x => !isLineTerminator x))) clock ∧
    history (onMessage genAI s socketId text fileUrl fileName clock).1 user.room
      = history s user.room ++
        [questionMessage user
           (String.mk (c :: rest.takeWhile (fun x => !isLineTerminator x))) clock,
         replyMessage (replyText (getAIResponse genAI
           (pushMessage s user.room (questionMessage user
             (String.mk (c :: rest.takeWhile (fun x => !isLineTerminator x))) clock))
           (String.mk (c :: rest.takeWhile (fun x => !isLineTerminator x))) user.room
           socketId clock.limiterNow clock.globalNow).result) clock] ∧
    (questionMessage user
      (String.mk (c :: rest.takeWhile (fun x => !isLineTerminator x))) clock).text
      = "🤖 Asked AI: " ++ String.mk (c :: rest.takeWhile (fun x => !isLineTerminator x)) := by
  have hcap := aiCommandRegex_capture text c1 c2 ws c rest hshape h1 h2 hne hws hc
  have hroute := onMessage_ai genAI s socketId text _ fileUrl fileName clock user huser
    hcap.1 hcap.2
  refine ⟨hroute, ?_, rfl⟩
  rw [hroute]
  exact history_aiExchange genAI s socketId user _ clock

/-- Witness of C11 (amended): with `"c"` joined to `"Math"`, the text `"/ai x  "` is
handled as the AI exchange with the question `"x  "`. -/
theorem ai_question_is_capture_witness :
    onMessage ⟨fun _ _ => Except.ok "4"⟩ (onJoin (init 0) "c" "alice" "Math" 0).1
      "c" "/ai x  " none none ⟨5, 5, 5, 5, 5, 5⟩
    = aiExchange ⟨fun _ _ => Except.ok "4"⟩ (onJoin (init 0) "c" "alice" "Math" 0).1 "c"
        { username := "alice", room := "Math", isAdmin := false }
        (String.mk ('x' :: [' ', ' '].takeWhile (fun x => !isLineTerminator x)))
        ⟨5, 5, 5, 5, 5, 5⟩ :=
  (ai_question_is_capture ⟨fun _ _ => Except.ok "4"⟩ (onJoin (init 0) "c" "alice" "Math" 0).1
    "c" "/ai x  " none none ⟨5, 5, 5, 5, 5, 5⟩
    { username := "alice", room := "Math", isAdmin := false }
    'a' 'i' [' '] 'x' [' ', ' '] (by decide) rfl (Or.inl rfl) (Or.inl rfl) (by decide)
    (by decide) (by decide)).1

/-! ## Histories only grow -/

theorem onJoin_messages (s : State) (c u room : String) (t : Int) :
    (onJoin s c u room t).1.messages = s.messages := by
  by_cases hu : u = ""
  · simp [onJoin, hu]
  by_cases hr : room = ""
  · simp [onJoin, hr]
  rw [onJoin_state s c u room t hu hr]
  cases h : s.rooms.get room <;> rfl

theorem onDisconnect_messages (s : State) (c : String) (t : Int) :
    (onDisconnect s c t).1.messages = s.messages := by
  unfold onDisconnect
  cases huser : s.users.get c with
  | none => rfl
  | some user => cases h : s.rooms.get user.room <;> simp [h]

theorem onTyping_state (s : State) (c : String) (isTyping : Bool) :
    (onTyping s c isTyping).1 = s := by
  unfold onTyping
  cases s.users.get c <;> rfl

theorem onAdminStats_state (s : State) (c : String) : (onAdminStats s c).1 = s := by
  unfold onAdminStats
  cases h : s.users.get c with
  | none => rfl
  | some user => cases hadmin : user.isAdmin <;> simp [hadmin]

theorem history_plainMessage_of_ne (s : State) (user : User) (text : String)
    (fileUrl fileName : Option String) (clock : Clock) (r : String) (hne : user.room ≠ r) :
    history (plainMessage s user text fileUrl fileName clock).1 r = history s r := by
  unfold plainMessage
  simp only []
  rw [history_congr _ _ _ (addMessageCount_messages _ _ _),
    history_pushMessage_of_ne _ _ _ _ hne]

theorem history_aiExchange_of_ne (genAI : GenAI) (s : State) (socketId : String) (user : User)
    (question : String) (clock : Clock) (r : String) (hne : user.room ≠ r) :
    history (aiExchange genAI s socketId user question clock).1 r = history s r := by
  unfold aiExchange
  simp only []
  rw [history_congr _ _ _ (addMessageCount_messages _ _ _),
    history_pushReply_of_ne _ _ _ _ hne,
    history_congr _ _ _ (getAIResponse_frame genAI _ question user.room socketId _ _).2.2,
    history_pushMessage_of_ne _ _ _ _ hne]

theorem history_onMessage (genAI : GenAI) (s : State) (socketId text : String)
    (fileUrl fileName : Option String) (clock : Clock) (r : String) :
    (∃ added, history (onMessage genAI s socketId text fileUrl fileName clock).1 r
      = history s r ++ added) ∧
    ((∀ user, s.users.get socketId = some user → user.room ≠ r) →
      history (onMessage genAI s socketId text fileUrl fileName clock).1 r = history s r) := by
  cases huser : s.users.get socketId with
  | none =>
    have hstate : (onMessage genAI s socketId text fileUrl fileName clock).1 = s := by
      simp [onMessage, huser]
    rw [hstate]
    exact ⟨⟨[], by simp⟩, fun _ => rfl⟩
  | some user =>
    by_cases hplain : ∀ q, aiCommandRegex text = some q → trim q = ""
    · rw [onMessage_plain genAI s socketId text fileUrl fileName clock user huser hplain]
      constructor
      · by_cases hr : user.room = r
        · subst hr
          exact ⟨_, history_plainMessage s user text fileUrl fileName clock⟩
        · exact ⟨[], by
            rw [history_plainMessage_of_ne s user text fileUrl fileName clock r hr]; simp⟩
      · intro hother
        exact history_plainMessage_of_ne s user text fileUrl fileName clock r
          (hother user rfl)
    · push_neg at hplain
      obtain ⟨q, hq, hblank⟩ := hplain
      rw [onMessage_ai genAI s socketId text q fileUrl fileName clock user huser hq hblank]
      constructor
      · by_cases hr : user.room = r
        · subst hr
          exact ⟨_, history_aiExchange genAI s socketId user q clock⟩
        · exact ⟨[], by
            rw [history_aiExchange_of_ne genAI s socketId user q clock r hr]; simp⟩
      · intro hother
        exact history_aiExchange_of_ne genAI s socketId user q clock r (hother user rfl)

theorem history_step (s : State) (ev : Event) (r : String) :
    (∃ added, history (step s ev).1 r = history s r ++ added) ∧
    ((∀ user, s.users.get ev.socketId = some user → user.room ≠ r) →
      history (step s ev).1 r = history s r) := by
  cases ev with
  | join c u room t =>
    have h := history_congr s (onJoin s c u room t).1 r (onJoin_messages s c u room t)
    exact ⟨⟨[], by simp [step, h]⟩, fun _ => h⟩
  | message c text fileUrl fileName clock genAI =>
    exact history_onMessage genAI s c text fileUrl fileName clock r
  | typing c isTyping =>
    have h : (step s (Event.typing c isTyping)).1 = s := onTyping_state s c isTyping
    rw [h]
    exact ⟨⟨[], by simp⟩, fun _ => rfl⟩
  | disconnect c t =>
    have h := history_congr s (onDisconnect s c t).1 r (onDisconnect_messages s c t)
    exact ⟨⟨[], by simp [step, h]⟩, fun _ => h⟩
  | adminStats c =>
    have h : (step s (Event.adminStats c)).1 = s := onAdminStats_state s c
    rw [h]
    exact ⟨⟨[], by simp⟩, fun _ => rfl⟩

theorem history_run (events : List Event) :
    ∀ (s : State) (r : String), ∃ added, history (run s events) r = history s r ++ added := by
  induction events with
  | nil => intro s r; exact ⟨[], by simp [run]⟩
  | cons ev rest ih =>
    intro s r
    obtain ⟨a1, h1⟩ := (history_step s ev r).1
    obtain ⟨a2, h2⟩ := ih (step s ev).1 r
    refine ⟨a1 ++ a2, ?_⟩
    have hrun : run s (ev :: rest) = run (step s ev).1 rest := rfl
    rw [hrun, h2, h1, List.append_assoc]

theorem run_append (events1 events2 : List Event) (s : State) :
    run s (events1 ++ events2) = run (run s events1) events2 := by
  simp [run, List.foldl_append]

/-- The one-step AI exchange is its first part followed at once by its second part. -/
theorem aiExchange_eq_begin_resume (genAI : GenAI) (s : State) (socketId : String)
    (user : User) (question : String) (clock : Clock) :
    aiExchange genAI s socketId user question clock =
      ((aiExchangeResume (aiExchangeBegin genAI s socketId user question clock).1 socketId
          user.room (aiExchangeBegin genAI s socketId user question clock).2.2 clock).1,
       (aiExchangeBegin genAI s socketId user question clock).2.1 ++
        (aiExchangeResume (aiExchangeBegin genAI s socketId user question clock).1 socketId
          user.room (aiExchangeBegin genAI s socketId user question clock).2.2 clock).2) := by
  have hget : (getAIResponse genAI
      (pushMessage s user.room (questionMessage user question clock)) question user.room
      socketId clock.limiterNow clock.globalNow).state.messages.get user.room
      = some (history s user.room ++ [questionMessage user question clock]) := by
    rw [(getAIResponse_frame genAI _ question user.room socketId _ _).2.2]
    exact messages_get_pushMessage_self s user.room _
  unfold aiExchange aiExchangeBegin aiExchangeResume
  simp only [hget, List.cons_append, List.nil_append]

theorem history_aiExchangeBegin (genAI : GenAI) (s : State) (socketId : String)
    (user : User) (question : String) (clock : Clock) (r : String) :
    history (aiExchangeBegin genAI s socketId user question clock).1 r
      = if user.room = r then history s r ++ [questionMessage user question clock]
        else history s r := by
  unfold aiExchangeBegin
  simp only []
  rw [history_congr _ _ _ (getAIResponse_frame genAI _ question user.room socketId _ _).2.2]
  by_cases hr : user.room = r
  · subst hr
    simp [history_pushMessage_self]
  · simp [hr, history_pushMessage_of_ne _ _ _ _ hr]

theorem history_aiExchangeResume (s : State) (socketId room : String)
    (result : Option String) (clock : Clock) (r : String) :
    history (aiExchangeResume s socketId room result clock).1 r
      = if room = r ∧ (s.messages.get room).isSome = true
        then history s r ++ [replyMessage (replyText result) clock]
        else history s r := by
  unfold aiExchangeResume
  cases hget : s.messages.get room with
  | none => simp
  | some past =>
    simp only [Option.isSome_some, and_true]
    rw [history_congr _ _ _ (addMessageCount_messages _ _ _)]
    by_cases hr : room = r
    · subst hr
      rw [history_pushReply_self _ _ _ past hget]
      simp [history, hget]
    · simp [hr, history_pushReply_of_ne _ _ _ _ hr]

/-- C12. History is append-only and order-preserving. For every state `s`, every event
`ev` (join, message in its plain and AI forms, typing, disconnect, admin-stats) and
every room `r`: the history of `r` before the event is a beginning of its history
after it; it is unchanged when `r` is not the room of the sender's session; over
any sequence of events the history read after a first part of the sequence is a
beginning of the history read after the whole sequence, so messages stay in arrival
order. The same holds for the two parts of an AI exchange taken apart, with other
events handled in between: the part before the suspension and the part after it each
add at the end only, and only to the room captured when the message arrived. -/
theorem history_is_append_only (s : State) (ev : Event) (r : String) :
    history s r <+: history (step s ev).1 r ∧
    ((∀ user, s.users.get ev.socketId = some user → user.room ≠ r) →
      history (step s ev).1 r = history s r) ∧
    (∀ (events1 events2 : List Event),
      history (run s events1) r <+: history (run s (events1 ++ events2)) r) ∧
    (∀ (genAI : GenAI) (socketId : String) (user : User) (question : String) (clock : Clock),
      history s r <+: history (aiExchangeBegin genAI s socketId user question clock).1 r ∧
      (user.room ≠ r →
        history (aiExchangeBegin genAI s socketId user question clock).1 r = history s r)) ∧
    (∀ (socketId room : String) (result : Option String) (clock : Clock),
      history s r <+: history (aiExchangeResume s socketId room result clock).1 r ∧
      (room ≠ r →
        history (aiExchangeResume s socketId room result clock).1 r = history s r)) := by
  refine ⟨?_, (history_step s ev r).2, ?_, ?_, ?_⟩
  · obtain ⟨added, h⟩ := (history_step s ev r).1
    exact ⟨added, h.symm⟩
  · intro events1 events2
    obtain ⟨added, h⟩ := history_run events2 (run s events1) r
    exact ⟨added, by rw [run_append, h]⟩
  · intro genAI socketId user question clock
    rw [history_aiExchangeBegin]
    by_cases hr : user.room = r
    · simp [hr]
    · simp [hr]
  · intro socketId room result clock
    rw [history_aiExchangeResume]
    by_cases hr : room = r
    · subst hr
      by_cases hsome : (s.messages.get room).isSome = true
      · simp [hsome]
      · simp [hsome]
    · simp [hr]

/-! ## Sessions and the admin flag -/

theorem addMessageCount_users (s : State) (room : String) (delta : Nat) :
    (addMessageCount s room delta).users = s.users := by
  unfold addMessageCount
  cases h : s.rooms.get room <;> simp

theorem pushReply_users (s : State) (room : String) (msg : Message) :
    (pushReply s room msg).users = s.users := by
  unfold pushReply
  cases h : s.messages.get room <;> simp

theorem onMessage_users (genAI : GenAI) (s : State) (socketId text : String)
    (fileUrl fileName : Option String) (clock : Clock) :
    (onMessage genAI s socketId text fileUrl fileName clock).1.users = s.users := by
  have hplain : ∀ user, (plainMessage s user text fileUrl fileName clock).1.users = s.users := by
    intro user
    unfold plainMessage
    simp only []
    rw [addMessageCount_users]
    rfl
  have hai : ∀ user q, (aiExchange genAI s socketId user q clock).1.users = s.users := by
    intro user q
    unfold aiExchange
    simp only []
    rw [addMessageCount_users, pushReply_users,
      (getAIResponse_frame genAI _ q user.room socketId _ _).1]
    rfl
  unfold onMessage
  cases huser : s.users.get socketId with
  | none => rfl
  | some user =>
    cases h : aiCommandRegex text with
    | none => exact hplain user
    | some q =>
      by_cases hq : trim q = ""
      · simpa [hq] using hplain user
      · simpa [hq] using hai user q

theorem step_admin_flag (s : State) (ev : Event)
    (hinv : ∀ c user, s.users.get c = some user →
      user.isAdmin = decide (user.username ∈ adminUsers)) :
    ∀ c user, (step s ev).1.users.get c = some user →
      user.isAdmin = decide (user.username ∈ adminUsers) := by
  intro c user hget
  cases ev with
  | join c0 u room t =>
    simp only [step] at hget
    by_cases hu : u = ""
    · simp [onJoin, hu] at hget
      exact hinv c user hget
    by_cases hr : room = ""
    · simp [onJoin, hr] at hget
      exact hinv c user hget
    have husers : (onJoin s c0 u room t).1.users = s.users.set c0
        { username := u, room := room, isAdmin := decide (u ∈ adminUsers) } := by
      rw [onJoin_state s c0 u room t hu hr]
      cases h : s.rooms.get room <;> rfl
    rw [husers] at hget
    by_cases hc : c0 = c
    · subst hc
      rw [JsMap.get_set_self] at hget
      simp only [Option.some.injEq] at hget
      subst hget
      rfl
    · rw [JsMap.get_set_of_ne _ _ _ _ hc] at hget
      exact hinv c user hget
  | message c0 text fileUrl fileName clock genAI =>
    simp only [step, onMessage_users] at hget
    exact hinv c user hget
  | typing c0 isTyping =>
    simp only [step, onTyping_state] at hget
    exact hinv c user hget
  | disconnect c0 t =>
    simp only [step, onDisconnect] at hget
    cases huser : s.users.get c0 with
    | none =>
      simp only [huser] at hget
      exact hinv c user hget
    | some user0 =>
      simp only [huser] at hget
      by_cases hc : c0 = c
      · subst hc
        cases h : s.rooms.get user0.room <;> simp [h, JsMap.get_delete_self] at hget
      · cases h : s.rooms.get user0.room <;>
          simp only [h, JsMap.get_delete_of_ne _ _ _ hc] at hget <;>
          exact hinv c user hget
  | adminStats c0 =>
    simp only [step, onAdminStats_state] at hget
    exact hinv c user hget

/-- In every state reached from start-up, the admin flag of a session says whether its
username is in the allow-list. -/
theorem reachable_admin_flag (t0 : Int) (events : List Event) :
    ∀ c user, (run (init t0) events).users.get c = some user →
      user.isAdmin = decide (user.username ∈ adminUsers) := by
  have hgen : ∀ (evs : List Event) (s : State),
      (∀ c user, s.users.get c = some user →
        user.isAdmin = decide (user.username ∈ adminUsers)) →
      ∀ c user, (run s evs).users.get c = some user →
        user.isAdmin = decide (user.username ∈ adminUsers) := by
    intro evs
    induction evs with
    | nil => intro s h; exact h
    | cons ev rest ih => intro s h; exact ih (step s ev).1 (step_admin_flag s ev h)
  exact hgen events (init t0) (fun c user h => by simp [init, JsMap.get] at h)

theorem JsMap.get_of_mem_of_nodup {α : Type} (m : JsMap α) (hnodup : (m.map Prod.fst).Nodup)
    (k : String) (v : α) (hmem : (k, v) ∈ m) : JsMap.get m k = some v := by
  induction m with
  | nil => cases hmem
  | cons hd tl ih =>
    obtain ⟨k0, v0⟩ := hd
    simp only [List.map_cons, List.nodup_cons] at hnodup
    rcases List.mem_cons.mp hmem with heq | htl
    · cases heq
      simp [JsMap.get]
    · have hne : k0 ≠ k := by
        intro h
        apply hnodup.1
        rw [h]
        exact List.mem_map.mpr ⟨(k, v), htl, rfl⟩
      simp [JsMap.get, hne, ih hnodup.2 htl]

/-- In every state reached from start-up, the rooms listed in order are the catalog
rooms, each with its member set and counter. -/
theorem reachable_rooms_listing (t0 : Int) (events : List Event) :
    (run (init t0) events).rooms.map
        (fun entry => (entry.1, entry.2.users.length, entry.2.messageCount))
      = catalogIds.map (fun r =>
          (r, (members (run (init t0) events) r).length,
            messageCount (run (init t0) events) r)) := by
  have hkeys : (run (init t0) events).rooms.map Prod.fst = catalogIds :=
    run_rooms_keys events (init t0)
  have hnodup : ((run (init t0) events).rooms.map Prod.fst).Nodup := by
    rw [hkeys]
    decide
  rw [← hkeys, List.map_map]
  apply List.map_congr_left
  intro entry hentry
  have hget := JsMap.get_of_mem_of_nodup _ hnodup entry.1 entry.2 hentry
  simp [members, messageCount, hget]

/-- C13. In every state reached from start-up and for every connection, handling
`admin-stats` never changes the state, and it emits an `admin-stats` snapshot to the
sender if and only if the sender has a session whose admin flag is set; the flag of a
session is set exactly when its username, the one given at join, is in the allow-list
`adminUsers`; otherwise nothing is emitted. In the snapshot `totalUsers` is the number
of sessions, `totalRooms` the number of catalog rooms, and the room entries list the
catalog rooms in order, each with the size of its member set and its counter. -/
theorem admin_stats_only_for_admins (t0 : Int) (events : List Event) (socketId : String) :
    (onAdminStats (run (init t0) events) socketId).1 = run (init t0) events ∧
    ((∃ stats, (onAdminStats (run (init t0) events) socketId).2
        = [Emit.toSocket socketId (Payload.adminStats stats)]) ↔
      (∃ user, (run (init t0) events).users.get socketId = some user ∧
        user.isAdmin = true)) ∧
    (∀ user, (run (init t0) events).users.get socketId = some user →
      (user.isAdmin = true ↔ user.username ∈ adminUsers)) ∧
    (∀ (username room : String) (stamp : Int), username ≠ "" → room ≠ "" →
      ((onJoin (run (init t0) events) socketId username room stamp).1.users.get
        socketId).map User.isAdmin = some (decide (username ∈ adminUsers))) ∧
    ((¬ ∃ user, (run (init t0) events).users.get socketId = some user ∧
        user.isAdmin = true) →
      (onAdminStats (run (init t0) events) socketId).2 = []) ∧
    (∀ stats, (onAdminStats (run (init t0) events) socketId).2
        = [Emit.toSocket socketId (Payload.adminStats stats)] →
      stats.totalUsers = (run (init t0) events).users.size ∧
      stats.totalRooms = catalogIds.length ∧
      stats.roomStats.map (fun st => (st.id, st.activeUsers, st.messageCount))
        = catalogIds.map (fun r =>
            (r, (members (run (init t0) events) r).length,
              messageCount (run (init t0) events) r))) := by
  have hkeys : (run (init t0) events).rooms.map Prod.fst = catalogIds :=
    run_rooms_keys events (init t0)
  have hsize : (run (init t0) events).rooms.size = catalogIds.length := by
    unfold JsMap.size
    rw [← hkeys, List.length_map]
  refine ⟨onAdminStats_state _ socketId, ?_, ?_, ?_, ?_, ?_⟩
  · unfold onAdminStats
    cases huser : (run (init t0) events).users.get socketId with
    | none => simp
    | some user => cases hadmin : user.isAdmin <;> simp [hadmin]
  · intro user huser
    rw [reachable_admin_flag t0 events socketId user huser]
    simp
  · intro username room stamp hu hr
    rw [onJoin_users_get_self _ socketId username room stamp hu hr]
    rfl
  · unfold onAdminStats
    cases huser : (run (init t0) events).users.get socketId with
    | none => simp
    | some user => cases hadmin : user.isAdmin <;> simp [hadmin]
  · intro stats hstats
    unfold onAdminStats at hstats
    cases huser : (run (init t0) events).users.get socketId with
    | none => simp [huser] at hstats
    | some user =>
      cases hadmin : user.isAdmin with
      | false => simp [huser, hadmin] at hstats
      | true =>
        simp only [huser, hadmin, if_true, List.cons.injEq, Emit.toSocket.injEq,
          Payload.adminStats.injEq, and_true, true_and] at hstats
        subst hstats
        refine ⟨rfl, hsize, ?_⟩
        simp only [List.map_map]
        exact reachable_rooms_listing t0 events

/-! ## The fallback answers -/

/-- What holds of the fallback: when both limiters allow and every provider call fails
with an error that carries a message, `getAIResponse` resolves to the fallback answer
of the subject; this is the canned text of each catalog subject, and the generic text
for every subject that is not a property name of the object `fallbackResponses`. -/
theorem getAIResponse_all_calls_fail (genAI : GenAI) (s : State)
    (question subject userId : String) (nowUser nowGlobal : Int)
    (huser : (canMakeAIRequest s userId nowUser).1 = true)
    (hglobal : (canMakeGlobalAIRequest s nowGlobal).1 = true)
    (hfail : ∀ model prompt, ∃ msg,
      genAI.generateContent model prompt = Except.error { message := some msg }) :
    (getAIResponse genAI s question subject userId nowUser nowGlobal).result
      = some (fallbackAnswer subject) ∧
    (fallbackResponses subject = none →
      fallbackAnswer subject = "🤖 AI Assistant: " ++
        "I'm having technical difficulties. In the meantime, you could try rephrasing your question or breaking it down into smaller parts.") ∧
    fallbackAnswer "Math" = "🤖 AI Assistant: " ++
      "I'm having trouble accessing math resources right now. For math help, try breaking the problem into smaller steps or check out Khan Academy for similar examples." ∧
    fallbackAnswer "Science" = "🤖 AI Assistant: " ++
      "Science resources are temporarily unavailable. You might find helpful information on NASA's website or ScienceDaily for current research." ∧
    fallbackAnswer "English" = "🤖 AI Assistant: " ++
      "Literature resources are experiencing issues. For writing help, try using the Hemingway Editor app or Purdue OWL for grammar guidelines." ∧
    fallbackAnswer "History" = "🤖 AI Assistant: " ++
      "History archives are temporarily unavailable. The Digital Public Library of America has excellent primary sources you could explore." ∧
    fallbackAnswer "Programming" = "🤖 AI Assistant: " ++
      "Coding resources are having connection issues. For programming help, Stack Overflow usually has answers to common coding problems." := by
  have hg : (canMakeGlobalAIRequest (canMakeAIRequest s userId nowUser).2 nowGlobal).1 = true := by
    rw [canMakeGlobalAIRequest_fst_congr s _ nowGlobal
      (canMakeAIRequest_globalAIRateLimit s userId nowUser)]
    exact hglobal
  refine ⟨?_, ?_, rfl, rfl, rfl, rfl, rfl⟩
  · unfold getAIResponse
    simp only [huser, hg, Bool.not_true, Bool.false_eq_true, if_false]
    obtain ⟨msg1, h1⟩ := hfail
      (if (complexKeywords.any fun keyword => includes (toLowerCase question) keyword) = true
        then "gemini-1.5-pro" else "gemini-1.5-flash")
      (primaryPrompt question subject)
    obtain ⟨msg2, h2⟩ := hfail "gemini-1.5-flash-8b" (secondaryPrompt question subject)
    rw [h1]
    simp only [h2]
    split_ifs <;> rfl
  · intro hnone
    unfold fallbackAnswer
    rw [hnone]
    rfl

/-- Witness of the fallback lemma: from the start-up state, with a provider that always
fails with the message `"503"`, the subject `"Math"` gets its canned text. -/
theorem getAIResponse_all_calls_fail_witness :
    (getAIResponse ⟨fun _ _ => Except.error { message := some "503" }⟩ (init 0)
      "why" "Math" "c" 1 1).result = some (fallbackAnswer "Math") :=
  (getAIResponse_all_calls_fail ⟨fun _ _ => Except.error { message := some "503" }⟩ (init 0)
    "why" "Math" "c" 1 1 (by decide) (by decide) (fun _ _ => ⟨"503", rfl⟩)).1

/-- C14 (code defect). The lookup `fallbackResponses[subject]` also finds the
properties that every object inherits, so a subject that is not one of the five
catalog subjects does not always get the generic text. From the start-up state, with a
provider whose every call fails with the message `"503"`: for the subject `"toString"`
both limiters allow, the provider is called, and `getAIResponse` resolves to the
assistant tag followed by the source text of a built-in function, not by the generic
fallback text. The subject is the room id, and `"toString"` is accepted as one: the
same text is stored as the AI message of the room. -/
theorem fallback_for_inherited_property_name :
    "toString" ∉ ["Math", "Science", "English", "History", "Programming"] ∧
    (getAIResponse ⟨fun _ _ => Except.error { message := some "503" }⟩ (init 0)
      "why" "toString" "c" 1 1).calls.length = 1 ∧
    (getAIResponse ⟨fun _ _ => Except.error { message := some "503" }⟩ (init 0)
      "why" "toString" "c" 1 1).result
      = some "🤖 AI Assistant: function toString() \x7b [native code] \x7d" ∧
    (getAIResponse ⟨fun _ _ => Except.error { message := some "503" }⟩ (init 0)
      "why" "toString" "c" 1 1).result
      ≠ some ("🤖 AI Assistant: " ++
        "I'm having technical difficulties. In the meantime, you could try rephrasing your question or breaking it down into smaller parts.") ∧
    (history (run (init 0)
      [Event.join "c" "alice" "toString" 0,
       Event.message "c" "/ai why" none none ⟨1, 1, 1, 1, 1, 1⟩
         ⟨fun _ _ => Except.error { message := some "503" }⟩])
      "toString").map (fun m => (m.text, m.isAI))
      = [("🤖 Asked AI: why", false),
         ("🤖 AI Assistant: function toString() \x7b [native code] \x7d", true)] := by
  decide

/-! ## Side effects of a denied request -/

theorem canMakeGlobalAIRequest_aiRateLimit (s : State) (t : Int) :
    (canMakeGlobalAIRequest s t).2.aiRateLimit = s.aiRateLimit := by
  unfold canMakeGlobalAIRequest
  simp only []
  split_ifs <;> rfl

/-- State of `getAIResponse` when the per-user limiter denies: the one it leaves. -/
theorem getAIResponse_state_of_user_denied (genAI : GenAI) (s : State)
    (question subject userId : String) (nowUser nowGlobal : Int)
    (hdeny : (canMakeAIRequest s userId nowUser).1 = false) :
    (getAIResponse genAI s question subject userId nowUser nowGlobal).state
      = (canMakeAIRequest s userId nowUser).2 := by
  unfold getAIResponse
  simp [hdeny]

/-- State of `getAIResponse` when the per-user limiter allows and the global limiter
denies: the one the global limiter leaves after the per-user limiter. -/
theorem getAIResponse_state_of_global_denied (genAI : GenAI) (s : State)
    (question subject userId : String) (nowUser nowGlobal : Int)
    (hallow : (canMakeAIRequest s userId nowUser).1 = true)
    (hdeny : (canMakeGlobalAIRequest s nowGlobal).1 = false) :
    (getAIResponse genAI s question subject userId nowUser nowGlobal).state
      = (canMakeGlobalAIRequest (canMakeAIRequest s userId nowUser).2 nowGlobal).2 := by
  have hg : (canMakeGlobalAIRequest (canMakeAIRequest s userId nowUser).2 nowGlobal).1
      = false := by
    rw [canMakeGlobalAIRequest_fst_congr s _ nowGlobal
      (canMakeAIRequest_globalAIRateLimit s userId nowUser)]
    exact hdeny
  unfold getAIResponse
  simp [hallow, hg]

/-- A denied request makes no provider call. -/
theorem getAIResponse_denied_calls (genAI : GenAI) (s : State)
    (question subject userId : String) (nowUser nowGlobal : Int)
    (hdeny : ¬ ((canMakeAIRequest s userId nowUser).1 = true ∧
                (canMakeGlobalAIRequest s nowGlobal).1 = true)) :
    (getAIResponse genAI s question subject userId nowUser nowGlobal).calls = [] := by
  have hg : (canMakeGlobalAIRequest (canMakeAIRequest s userId nowUser).2 nowGlobal).1
      = (canMakeGlobalAIRequest s nowGlobal).1 :=
    canMakeGlobalAIRequest_fst_congr s _ nowGlobal
      (canMakeAIRequest_globalAIRateLimit s userId nowUser)
  unfold getAIResponse
  simp only [hg]
  cases h1 : (canMakeAIRequest s userId nowUser).1
  · simp
  · cases h2 : (canMakeGlobalAIRequest s nowGlobal).1
    · simp
    · exact absurd ⟨h1, h2⟩ hdeny

/-- C15, counterexample. User `"u"` has count 3 in a window that started at 0, and the
global limiter has count 30 in a window that started at 100000. At time 100001 the
per-user limiter allows (its window has expired: the count is reset, then incremented)
and the global limiter denies: the request is denied, and the count of `"u"` is 1
afterwards, not 3 + 1. -/
theorem denied_request_after_rollover_leaves_count_one :
    (canMakeAIRequest
      { init 0 with
        aiRateLimit := [("u", { count := 3, lastRequest := 0, lastReset := 0 })],
        globalAIRateLimit := { count := 30, lastReset := 100000 } } "u" 100001).1 = true ∧
    (canMakeGlobalAIRequest
      { init 0 with
        aiRateLimit := [("u", { count := 3, lastRequest := 0, lastReset := 0 })],
        globalAIRateLimit := { count := 30, lastReset := 100000 } } 100001).1 = false ∧
    (getAIResponse ⟨fun _ _ => Except.ok "x"⟩
      { init 0 with
        aiRateLimit := [("u", { count := 3, lastRequest := 0, lastReset := 0 })],
        globalAIRateLimit := { count := 30, lastReset := 100000 } }
      "why" "Math" "u" 100001 100001).result = some rateLimitedText ∧
    ((getAIResponse ⟨fun _ _ => Except.ok "x"⟩
      { init 0 with
        aiRateLimit := [("u", { count := 3, lastRequest := 0, lastReset := 0 })],
        globalAIRateLimit := { count := 30, lastReset := 100000 } }
      "why" "Math" "u" 100001 100001).state.aiRateLimit.get "u").map UserLimit.count
      = some 1 := by
  decide

set_option maxRecDepth 20000 in
/-- The limiter state of the counterexample of C15 is reached from start-up at time 0:
three requests of `"u"` at time 0, then five requests of each of six other users at
time 100000. -/
theorem denied_request_after_rollover_state_is_reached :
    (aiRequests ⟨fun _ _ => Except.ok "x"⟩ (init 0)
      ([("u", 0), ("u", 0), ("u", 0)] ++
        List.replicate 5 ("a", 100000) ++ List.replicate 5 ("b", 100000) ++
        List.replicate 5 ("c", 100000) ++ List.replicate 5 ("d", 100000) ++
        List.replicate 5 ("e", 100000) ++ List.replicate 5 ("f", 100000))).aiRateLimit.get "u"
      = some { count := 3, lastRequest := 0, lastReset := 0 } ∧
    (aiRequests ⟨fun _ _ => Except.ok "x"⟩ (init 0)
      ([("u", 0), ("u", 0), ("u", 0)] ++
        List.replicate 5 ("a", 100000) ++ List.replicate 5 ("b", 100000) ++
        List.replicate 5 ("c", 100000) ++ List.replicate 5 ("d", 100000) ++
        List.replicate 5 ("e", 100000) ++ List.replicate 5 ("f", 100000))).globalAIRateLimit
      = { count := 30, lastReset := 100000 } := by
  decide

/-- C15, amended. The two limiters are consulted in a fixed order with short-circuit,
so a denied request is not free of side effects. For every state: when the per-user
limiter denies, the request is denied and the global limiter's count and window start
are left unchanged; when the per-user limiter allows and the global limiter denies, the
request is denied without a provider call and the user's record is nevertheless
updated as by an allowed request: its count is one more than the count the limiter
tested, that is the previous count plus 1 when the user's window has not expired,
and 1 when the window has expired (the count is reset first) or when the user had no
record. -/
theorem denied_request_side_effects (genAI : GenAI) (s : State)
    (question subject userId : String) (nowUser nowGlobal : Int) :
    ((canMakeAIRequest s userId nowUser).1 = false →
      (getAIResponse genAI s question subject userId nowUser nowGlobal).result
        = some rateLimitedText ∧
      (getAIResponse genAI s question subject userId nowUser nowGlobal).state.globalAIRateLimit
        = s.globalAIRateLimit) ∧
    ((canMakeAIRequest s userId nowUser).1 = true →
      (canMakeGlobalAIRequest s nowGlobal).1 = false →
      (getAIResponse genAI s question subject userId nowUser nowGlobal).result
        = some rateLimitedText ∧
      (getAIResponse genAI s question subject userId nowUser nowGlobal).calls = [] ∧
      (∀ (c : Nat) (lr w : Int),
        s.aiRateLimit.get userId = some { count := c, lastRequest := lr, lastReset := w } →
        nowUser - w ≤ 60000 →
        (getAIResponse genAI s question subject userId nowUser nowGlobal).state.aiRateLimit.get
          userId = some { count := c + 1, lastRequest := nowUser, lastReset := w }) ∧
      (∀ (c : Nat) (lr w : Int),
        s.aiRateLimit.get userId = some { count := c, lastRequest := lr, lastReset := w } →
        nowUser - w > 60000 →
        (getAIResponse genAI s question subject userId nowUser nowGlobal).state.aiRateLimit.get
          userId = some { count := 1, lastRequest := nowUser, lastReset := nowUser }) ∧
      (s.aiRateLimit.get userId = none →
        (getAIResponse genAI s question subject userId nowUser nowGlobal).state.aiRateLimit.get
          userId = some { count := 1, lastRequest := nowUser, lastReset := nowUser })) := by
  constructor
  · intro hdeny
    refine ⟨getAIResponse_denied genAI s question subject userId nowUser nowGlobal
      (fun h => by rw [hdeny] at h; cases h.1), ?_⟩
    rw [getAIResponse_state_of_user_denied genAI s question subject userId nowUser nowGlobal
      hdeny]
    exact canMakeAIRequest_globalAIRateLimit s userId nowUser
  · intro hallow hdeny
    have hstate := getAIResponse_state_of_global_denied genAI s question subject userId
      nowUser nowGlobal hallow hdeny
    have hnot : ¬ ((canMakeAIRequest s userId nowUser).1 = true ∧
        (canMakeGlobalAIRequest s nowGlobal).1 = true) :=
      fun h => by rw [hdeny] at h; cases h.2
    refine ⟨getAIResponse_denied genAI s question subject userId nowUser nowGlobal hnot,
      getAIResponse_denied_calls genAI s question subject userId nowUser nowGlobal hnot,
      ?_, ?_, ?_⟩
    · intro c lr w hget hwin
      rw [hstate, canMakeGlobalAIRequest_aiRateLimit]
      have h := canMakeAIRequest_no_reset s userId nowUser c lr w hget hwin
      have hc : c < 5 := by
        have h1 := h.1
        rw [hallow] at h1
        exact of_decide_eq_true h1.symm
      rw [h.2, if_pos hc]
    · intro c lr w hget hwin
      rw [hstate, canMakeGlobalAIRequest_aiRateLimit]
      exact (canMakeAIRequest_reset s userId nowUser c lr w hget hwin).2
    · intro hget
      rw [hstate, canMakeGlobalAIRequest_aiRateLimit]
      exact (canMakeAIRequest_first s userId nowUser hget).2

/-! ## Instances of the closing claims -/

/-- Witness of C12: with `"c"` joined to `"Math"`, the plain message `"hello"` leaves
the history of `"Science"` as it is. -/
theorem history_is_append_only_witness :
    history (step (onJoin (init 0) "c" "alice" "Math" 0).1
      (Event.message "c" "hello" none none ⟨5, 5, 5, 5, 5, 5⟩ ⟨fun _ _ => Except.ok "x"⟩)).1
      "Science"
    = history (onJoin (init 0) "c" "alice" "Math" 0).1 "Science" :=
  (history_is_append_only (onJoin (init 0) "c" "alice" "Math" 0).1
    (Event.message "c" "hello" none none ⟨5, 5, 5, 5, 5, 5⟩ ⟨fun _ _ => Except.ok "x"⟩)
    "Science").2.1
    (fun user huser => by
      have h : some ({ username := "alice", room := "Math", isAdmin := false } : User)
          = some user := huser
      cases h
      decide)

/-- Witness of C13: after `"c"` has joined `"Math"` as `"admin"` and `"d"` as `"bob"`,
the snapshot goes to `"c"` with two sessions and five rooms, nothing goes to `"d"`, and
the state is as before. -/
theorem admin_stats_only_for_admins_witness :
    (onAdminStats (run (init 0)
      [Event.join "c" "admin" "Math" 1, Event.join "d" "bob" "Math" 2]) "c").2
      = [Emit.toSocket "c" (Payload.adminStats
          { totalUsers := 2, totalRooms := 5,
            roomStats :=
              [{ id := "Math", name := "📐 Math", activeUsers := 2, messageCount := 0 },
               { id := "Science", name := "🔬 Science", activeUsers := 0, messageCount := 0 },
               { id := "English", name := "📚 English", activeUsers := 0, messageCount := 0 },
               { id := "History", name := "🏛️ History", activeUsers := 0, messageCount := 0 },
               { id := "Programming", name := "💻 Programming", activeUsers := 0,
                 messageCount := 0 }] })] ∧
    (onAdminStats (run (init 0)
      [Event.join "c" "admin" "Math" 1, Event.join "d" "bob" "Math" 2]) "d").2 = [] ∧
    (onAdminStats (run (init 0)
      [Event.join "c" "admin" "Math" 1, Event.join "d" "bob" "Math" 2]) "c").1
      = run (init 0) [Event.join "c" "admin" "Math" 1, Event.join "d" "bob" "Math" 2] :=
  ⟨by decide,
   (admin_stats_only_for_admins 0
      [Event.join "c" "admin" "Math" 1, Event.join "d" "bob" "Math" 2] "d").2.2.2.2.1
      (fun h => by
        obtain ⟨user, huser, hadmin⟩ := h
        have h1 : some ({ username := "bob", room := "Math", isAdmin := false } : User)
            = some user := huser
        cases h1
        cases hadmin),
   (admin_stats_only_for_admins 0
      [Event.join "c" "admin" "Math" 1, Event.join "d" "bob" "Math" 2] "c").1⟩

/-- Witness of C15 (amended): with count 3 in an expired window for `"u"` and the
global budget used up, the denied request leaves the record of `"u"` with count 1 in a
window starting at the time of the request. -/
theorem denied_request_side_effects_witness :
    (getAIResponse ⟨fun _ _ => Except.ok "x"⟩
      { init 0 with
        aiRateLimit := [("u", { count := 3, lastRequest := 0, lastReset := 0 })],
        globalAIRateLimit := { count := 30, lastReset := 100000 } }
      "why" "Math" "u" 100001 100001).state.aiRateLimit.get "u"
      = some { count := 1, lastRequest := 100001, lastReset := 100001 } :=
  ((denied_request_side_effects ⟨fun _ _ => Except.ok "x"⟩
    { init 0 with
      aiRateLimit := [("u", { count := 3, lastRequest := 0, lastReset := 0 })],
      globalAIRateLimit := { count := 30, lastReset := 100000 } }
    "why" "Math" "u" 100001 100001).2 (by decide) (by decide)).2.2.2.1
    3 0 0 (by decide) (by decide)

end StudyHub
